import Mathlib

/-!
Verification development for the node-editor repository.

The file is a shallow embedding of the repository code:
node_types.py (type system, properties, pin generators, node model),
math_nodes.py (the math node catalog and the topological evaluator built
on graphlib.TopologicalSorter) and js_generator.py (the registry driven
code generation engine).  Pure Python functions become Lean functions;
mutation becomes explicit state passing (a function that mutates an
object returns the updated object; a function that can both mutate and
raise returns the final state of every object next to the Except value,
so that partial mutation before a raise stays observable); Python
exceptions become an explicit error type.  Machine level aliasing of
mutable dictionaries, which one claim is about, is modelled separately
by an allocation counter (the Alloc section below).
-/

/-- Fueled Euclidean gcd.  The gcd of the standard library is defined by
well founded recursion, which the kernel does not unfold; this fueled
version evaluates everywhere. -/
def gcdFuel : Nat → Nat → Nat → Nat
  | 0, _, b => b
  | fuel + 1, a, b => if a = 0 then b else gcdFuel fuel (b % a) a

/-- Euclidean gcd; the first argument strictly decreases at every step,
so first argument plus one units of fuel always suffice. -/
def pyGcd (a b : Nat) : Nat := gcdFuel (a + 1) a b

/-- A Python float, as an exactly represented rational: numerator and
denominator as plain data, kept normalized by the operations below so
that structural equality is value equality.  Every float computation
this development exercises (arithmetic on small integers) is exact in
IEEE doubles, so the model agrees with CPython on it. -/
structure PyFloat where
  num : Int
  den : Nat
  deriving DecidableEq, Repr

/-- The float of an integer. -/
def PyFloat.ofInt (i : Int) : PyFloat := ⟨i, 1⟩

/-- Normalize a fraction (the divisions are exact because the gcd
divides both components). -/
def normFloat (n : Int) (d : Nat) : PyFloat :=
  if d = 0 then ⟨0, 0⟩
  else
    let g := pyGcd n.natAbs d
    ⟨n / (g : Int), d / g⟩

/-- Float addition. -/
def addFloat (a b : PyFloat) : PyFloat :=
  normFloat (a.num * (b.den : Int) + b.num * (a.den : Int)) (a.den * b.den)

/-- Float subtraction. -/
def subFloat (a b : PyFloat) : PyFloat :=
  normFloat (a.num * (b.den : Int) - b.num * (a.den : Int)) (a.den * b.den)

/-- Float multiplication. -/
def mulFloat (a b : PyFloat) : PyFloat := normFloat (a.num * b.num) (a.den * b.den)

/-- Float division (callers exclude a zero divisor first). -/
def divFloat (a b : PyFloat) : PyFloat :=
  if 0 ≤ b.num then normFloat (a.num * (b.den : Int)) (a.den * b.num.natAbs)
  else normFloat (-(a.num * (b.den : Int))) (a.den * b.num.natAbs)

/-- Float order, by cross multiplication (denominators are
nonnegative). -/
def leFloat (a b : PyFloat) : Bool := decide (a.num * (b.den : Int) ≤ b.num * (a.den : Int))

/-- Whether a float is integral (normalized values have denominator
one exactly when they are). -/
def PyFloat.isIntegral (q : PyFloat) : Bool := q.den == 1

/-- Python runtime values that appear in node property maps and flow
through the evaluator: ints, floats and strings. -/
inductive PyVal where
  | intV (i : Int)
  | floatV (q : PyFloat)
  | strV (s : String)
  deriving DecidableEq, Repr

/-- Python exceptions raised by the embedded code.  The args lists model
the exception arguments: AssertionError with no message and ValueError()
carry an empty list.  cycleError is graphlib.CycleError. -/
inductive PyError where
  | typeError
  | notImplementedError
  | assertionError (args : List String)
  | valueError (args : List String)
  | keyError (key : List String)
  | attributeError
  | zeroDivisionError
  | cycleError
  deriving DecidableEq, Repr

/-- The argument payload of an exception, used to state whether an error
message identifies anything at all. -/
def PyError.payload : PyError → List String
  | .assertionError args => args
  | .valueError args => args
  | .keyError key => key
  | _ => []

/-- Result of a single dunder call (rshift or lshift method): either a
boolean, or the NotImplemented sentinel by which a Python operand asks
the interpreter to try the reflected operand. -/
inductive OpResult where
  | val (b : Bool)
  | notImplementedSentinel
  deriving DecidableEq, Repr

/-- The DataType hierarchy of node_types.py.  AnyDataType and
SimpleDataType are the two subclasses defined in the repository.
DataType itself is an open abstract base class: the comment in the
source says the operator protocol was chosen so that subclassing keeps
working through the NotImplemented sentinel.  externalDataType stands
for such a further subclass whose rshift and lshift methods decline
every comparison by returning NotImplemented, the case the base class
explicitly anticipates; it realises the pair of variants with no
defined compatibility rule that the spec talks about. -/
inductive DataType where
  | anyDataType (id : String)
  | simpleDataType (id : String)
  | externalDataType (id : String)
  deriving DecidableEq, Repr

/-- The id field shared by every DataType variant. -/
def DataType.dtId : DataType → String
  | .anyDataType i => i
  | .simpleDataType i => i
  | .externalDataType i => i

/-- The rshift method of each variant (self >> other: may a source of
type self feed a target of type other).  AnyDataType returns True for
everything; SimpleDataType compares ids against another SimpleDataType
and declines any other variant; externalDataType declines everything. -/
def DataType.rshiftMethod : DataType → DataType → OpResult
  | .anyDataType _, _ => .val true
  | .simpleDataType a, .simpleDataType b => .val (a == b)
  | .simpleDataType _, _ => .notImplementedSentinel
  | .externalDataType _, _ => .notImplementedSentinel

/-- The lshift method of each variant (self << other: may a target of
type self accept a source of type other); same shape as rshiftMethod. -/
def DataType.lshiftMethod : DataType → DataType → OpResult
  | .anyDataType _, _ => .val true
  | .simpleDataType a, .simpleDataType b => .val (a == b)
  | .simpleDataType _, _ => .notImplementedSentinel
  | .externalDataType _, _ => .notImplementedSentinel

/-- Python evaluation of the expression a >> b: call a.rshiftMethod b;
on NotImplemented fall back to the reflected call, which the DataType
base class routes to b.lshiftMethod a; if both decline, the interpreter
raises TypeError (unsupported operand types). -/
def pyRshiftOp (a b : DataType) : Except PyError Bool :=
  match a.rshiftMethod b with
  | .val v => .ok v
  | .notImplementedSentinel =>
    match b.lshiftMethod a with
    | .val v => .ok v
    | .notImplementedSentinel => .error .typeError

/-- Python evaluation of the expression a << b, with the reflected call
routed to b.rshiftMethod a. -/
def pyLshiftOp (a b : DataType) : Except PyError Bool :=
  match a.lshiftMethod b with
  | .val v => .ok v
  | .notImplementedSentinel =>
    match b.rshiftMethod a with
    | .val v => .ok v
    | .notImplementedSentinel => .error .typeError

/-- DataType.can_target: evaluates self >> other inside a try block
whose except clause catches NotImplementedError and returns False.  The
clause is transcribed as written in the source: it catches exactly
NotImplementedError, and in particular does not catch the TypeError the
interpreter raises when both operands decline the comparison. -/
def DataType.can_target (self other : DataType) : Except PyError Bool :=
  match pyRshiftOp self other with
  | .error .notImplementedError => .ok false
  | r => r

/-- DataType.can_source: evaluates self << other with the same
try/except NotImplementedError wrapper. -/
def DataType.can_source (self other : DataType) : Except PyError Bool :=
  match pyLshiftOp self other with
  | .error .notImplementedError => .ok false
  | r => r

/-- Python repr of a string: quoted with escaping of backslash and the
quote character.  (CPython may switch to double quotes when the string
itself contains a quote; the identifiers rendered in this development
contain neither, so the simple form agrees with CPython on them.) -/
def pyReprStr (s : String) : String :=
  "\x27" ++ ((s.replace "\\" "\\\\").replace "\x27" "\\\x27") ++ "\x27"

/-- Python repr of a property value, used as an assert message.  (The
float rendering is schematic; no statement below depends on it.) -/
def pyReprVal : PyVal → String
  | .intV i => toString i
  | .floatV q => toString q.num ++ "/" ++ toString q.den
  | .strV s => pyReprStr s

/-- Pin of node_types.py: a frozen dataclass.  The meta_data field is a
mutable dict; this value level model carries its contents, while the
aliasing structure of the dict object itself is studied in the Alloc
section. -/
structure Pin where
  name : String
  in_out : String
  type : DataType
  meta_data : List (String × String)
  deriving DecidableEq, Repr

/-- The Property hierarchy of node_types.py, with the constructor field
order of the dataclasses: default and meta_data from the base class,
then the subclass fields (low/high bounds, or the choices tuple). -/
inductive Property where
  | floatProperty (default : PyFloat) (meta_data : List (String × String)) (low high : Option PyFloat)
  | intProperty (default : Int) (meta_data : List (String × String)) (low high : Option Int)
  | choicesProperty (default : String) (meta_data : List (String × String)) (choices : List String)
  deriving DecidableEq, Repr

/-- The default of a property, as the Python value stored in it. -/
def Property.defaultVal : Property → PyVal
  | .floatProperty d _ _ _ => .floatV d
  | .intProperty d _ _ _ => .intV d
  | .choicesProperty d _ _ => .strV d

/-- The optional inclusive bounds checks shared by FloatProperty.validate
and IntProperty.validate: return False iff a present low bound exceeds
the value or a present high bound is below it. -/
def boundsOk (low high : Option PyFloat) (q : PyFloat) : Bool :=
  (match low with | some l => leFloat l q | none => true) &&
  (match high with | some h => leFloat q h | none => true)

/-- Property.validate of each variant.  FloatProperty asserts the value
is numeric with repr(value) as the assert message, then checks bounds.
IntProperty asserts (with no message) the value is numeric and integral,
then checks bounds.  ChoicesProperty asserts the value is a string and
tests membership in the choices tuple.  A failed assert raises
AssertionError; validation proper returns a boolean. -/
def Property.validate : Property → PyVal → Except PyError Bool
  | .floatProperty _ _ low high, .intV i => .ok (boundsOk low high (.ofInt i))
  | .floatProperty _ _ low high, .floatV q => .ok (boundsOk low high q)
  | .floatProperty _ _ _ _, .strV s => .error (.assertionError [pyReprStr s])
  | .intProperty _ _ low high, .intV i =>
      .ok (boundsOk (low.map PyFloat.ofInt) (high.map PyFloat.ofInt) (.ofInt i))
  | .intProperty _ _ low high, .floatV q =>
      if q.isIntegral then
        .ok (boundsOk (low.map PyFloat.ofInt) (high.map PyFloat.ofInt) q)
      else .error (.assertionError [])
  | .intProperty _ _ _ _, .strV _ => .error (.assertionError [])
  | .choicesProperty _ _ choices, .strV s => .ok (choices.contains s)
  | .choicesProperty _ _ _, .intV _ => .error (.assertionError [])
  | .choicesProperty _ _ _, .floatV _ => .error (.assertionError [])

/-- The PinGenerator hierarchy of node_types.py. -/
inductive PinGenerator where
  | fixedPinGenerator (pins : List (String × Pin))
  | chainPinGenerators (generators : List PinGenerator)
  | simplePropertyPinGenerator (property_name id_template : String) (pin_template : Pin)
      (copy_metadata : Bool)

mutual

/-- Decidable equality for the nested PinGenerator inductive (the
deriving handler does not support nesting). -/
def PinGenerator.decEq : (a b : PinGenerator) → Decidable (a = b)
  | .fixedPinGenerator a, .fixedPinGenerator b =>
    if h : a = b then .isTrue (by rw [h])
    else .isFalse (fun hh => h (by injection hh))
  | .fixedPinGenerator _, .chainPinGenerators _ => .isFalse (fun h => PinGenerator.noConfusion h)
  | .fixedPinGenerator _, .simplePropertyPinGenerator _ _ _ _ =>
    .isFalse (fun h => PinGenerator.noConfusion h)
  | .chainPinGenerators _, .fixedPinGenerator _ => .isFalse (fun h => PinGenerator.noConfusion h)
  | .chainPinGenerators a, .chainPinGenerators b =>
    match PinGenerator.decEqList a b with
    | .isTrue h => .isTrue (by rw [h])
    | .isFalse h => .isFalse (fun hh => h (by injection hh))
  | .chainPinGenerators _, .simplePropertyPinGenerator _ _ _ _ =>
    .isFalse (fun h => PinGenerator.noConfusion h)
  | .simplePropertyPinGenerator _ _ _ _, .fixedPinGenerator _ =>
    .isFalse (fun h => PinGenerator.noConfusion h)
  | .simplePropertyPinGenerator _ _ _ _, .chainPinGenerators _ =>
    .isFalse (fun h => PinGenerator.noConfusion h)
  | .simplePropertyPinGenerator a1 a2 a3 a4, .simplePropertyPinGenerator b1 b2 b3 b4 =>
    if h : a1 = b1 ∧ a2 = b2 ∧ a3 = b3 ∧ a4 = b4 then
      .isTrue (by obtain ⟨h1, h2, h3, h4⟩ := h; rw [h1, h2, h3, h4])
    else .isFalse (fun hh => by injection hh with i1 i2 i3 i4; exact h ⟨i1, i2, i3, i4⟩)

/-- Decidable equality on lists of pin generators. -/
def PinGenerator.decEqList : (a b : List PinGenerator) → Decidable (a = b)
  | [], [] => .isTrue rfl
  | [], _ :: _ => .isFalse (fun h => List.noConfusion h)
  | _ :: _, [] => .isFalse (fun h => List.noConfusion h)
  | x :: xs, y :: ys =>
    match PinGenerator.decEq x y with
    | .isTrue h1 =>
      match PinGenerator.decEqList xs ys with
      | .isTrue h2 => .isTrue (by rw [h1, h2])
      | .isFalse h2 => .isFalse (fun h => h2 (by injection h))
    | .isFalse h1 => .isFalse (fun h => h1 (by injection h))

end

instance : DecidableEq PinGenerator := PinGenerator.decEq

/-- NodeType of node_types.py: the immutable template.  Python dicts are
insertion ordered association lists here. -/
structure NodeType where
  category : List String
  id : String
  name : String
  properties : List (String × Property)
  pin_generator : PinGenerator
  meta_data : List (String × String)
  deriving DecidableEq

/-- Node of node_types.py: the mutable instance.  connections is the
defaultdict(list) mapping a pin id to the ordered peer list; reading a
missing key yields the empty default, which a total function models
directly. -/
@[ext]
structure Node where
  id : String
  type : NodeType
  values : List (String × PyVal)
  pins : List (String × Pin)
  connections : String → List (String × String)
  meta_data : List (String × String)

/-- Python str.format with one positional argument, as used by the pin
and id templates: every empty brace pair is replaced by the argument
(the templates this generator is meant for contain exactly one). -/
def pyFormatNat (template : String) (i : Nat) : String :=
  String.intercalate (toString i) (template.splitOn "\x7b\x7d")

/-- The loop body of SimplePropertyPinGenerator.build_pins: for each i
a pin is built from the template by formatting its name and id with i,
the id is asserted fresh and the pin inserted.  (Whether the template
meta_data dict is copied only affects aliasing, not these contents.) -/
def buildPinsLoop (idT : String) (pinT : Pin) : List Nat → Node → Except PyError Node
  | [], node => .ok node
  | i :: rest, node =>
    let p : Pin :=
      { name := pyFormatNat pinT.name i, in_out := pinT.in_out,
        type := pinT.type, meta_data := pinT.meta_data }
    let pid := pyFormatNat idT i
    if (node.pins.lookup pid).isSome then .error (.assertionError [])
    else buildPinsLoop idT pinT rest { node with pins := node.pins ++ [(pid, p)] }

mutual

/-- PinGenerator.build_pins.  FixedPinGenerator raises
ValueError("Some pins already defined") unless its key set is disjoint
from the existing pins, then inserts its pins (dict update; disjoint, so
an append).  ChainPinGenerators applies each sub generator in order.
SimplePropertyPinGenerator reads the integer property value (asserting
it is an int), then runs the indexed loop. -/
def PinGenerator.build_pins : PinGenerator → Node → Except PyError Node
  | .fixedPinGenerator pins, node =>
    if pins.any (fun kv => (node.pins.lookup kv.1).isSome) then
      .error (.valueError ["Some pins already defined"])
    else .ok { node with pins := node.pins ++ pins }
  | .chainPinGenerators gens, node => buildPinsChain gens node
  | .simplePropertyPinGenerator pname idT pinT _, node =>
    match node.values.lookup pname with
    | none => .error (.keyError [pname])
    | some (.intV count) => buildPinsLoop idT pinT (List.range count.toNat) node
    | some _ => .error (.assertionError [])

/-- The loop of ChainPinGenerators.build_pins: each generator sees the
pins added by the earlier ones. -/
def buildPinsChain : List PinGenerator → Node → Except PyError Node
  | [], node => .ok node
  | g :: rest, node =>
    match g.build_pins node with
    | .error e => .error e
    | .ok node1 => buildPinsChain rest node1

end

/-- Python dict.pop(key, default) on the parameter mapping: returns the
stored value and the mapping with the key removed, or none and the
unchanged mapping. -/
def popKey : List (String × PyVal) → String → Option PyVal × List (String × PyVal)
  | [], _ => (none, [])
  | (k, v) :: rest, n =>
    if k = n then (some v, rest)
    else
      match popKey rest n with
      | (r, rest1) => (r, (k, v) :: rest1)

/-- The property loop of NodeType.create: for each declared property pop
the caller supplied override (or take the default), validate it, and on
a validator returning False raise the bare ValueError().  Returns the
assembled values map next to the leftover parameter mapping, which
reflects the pops performed up to the point of return. -/
def buildValues : List (String × Property) → List (String × PyVal) →
    Except PyError (List (String × PyVal)) × List (String × PyVal)
  | [], parameter => (.ok [], parameter)
  | (n, p) :: props, parameter =>
    match popKey parameter n with
    | (r, parameter1) =>
      let v := r.getD p.defaultVal
      match p.validate v with
      | .error e => (.error e, parameter1)
      | .ok false => (.error (.valueError []), parameter1)
      | .ok true =>
        match buildValues props parameter1 with
        | (.ok values, parameter2) => (.ok ((n, v) :: values), parameter2)
        | (.error e, parameter2) => (.error e, parameter2)

/-- NodeType.create: run the property loop, then build the Node with the
validated values, empty pin map and empty connection defaultdict, and
invoke the pin generator on it.  The second component is the final state
of the caller supplied parameter mapping (create pops from it). -/
def NodeType.create (nt : NodeType) (node_id : String) (parameter : List (String × PyVal))
    (meta_data : List (String × String)) :
    Except PyError Node × List (String × PyVal) :=
  match buildValues nt.properties parameter with
  | (.error e, rest) => (.error e, rest)
  | (.ok values, rest) =>
    match nt.pin_generator.build_pins
        { id := node_id, type := nt, values := values, pins := [],
          connections := fun _ => [], meta_data := meta_data } with
    | .error e => (.error e, rest)
    | .ok node => (.ok node, rest)

/-- The input_pins view: pins filtered to direction in, in declaration
order. -/
def Node.input_pins (n : Node) : List (String × Pin) :=
  n.pins.filter (fun kv => kv.2.in_out == "in")

/-- The output_pins view: pins filtered to direction out, in declaration
order. -/
def Node.output_pins (n : Node) : List (String × Pin) :=
  n.pins.filter (fun kv => kv.2.in_out == "out")

/-- Node.connect.  The two pin lookups come first (a missing pin id is a
KeyError), then the four asserts in source order: source direction out,
dest direction in, type compatibility (the assert carries the message
"Types incompatible."; if can_target itself raises, that exception
propagates), and absence of the exact edge from either view.  Only after
every assert do the two appends happen.  The final states of both
endpoint objects are returned next to the Except value, so the theorems
can talk about what a raising call left behind; the two endpoints are
modelled as distinct objects, as when the interactive shell wires two
nodes of its table. -/
def Node.connect : Node × String → Node × String → Except PyError Unit × (Node × Node)
  | (s, sp), (d, dp) =>
    match s.pins.lookup sp with
    | none => (.error (.keyError [sp]), (s, d))
    | some spin =>
      match d.pins.lookup dp with
      | none => (.error (.keyError [dp]), (s, d))
      | some dpin =>
        if spin.in_out = "out" then
          if dpin.in_out = "in" then
            match spin.type.can_target dpin.type with
            | .error e => (.error e, (s, d))
            | .ok compat =>
              if compat then
                if (d.id, dp) ∈ s.connections sp then (.error (.assertionError []), (s, d))
                else if (s.id, sp) ∈ d.connections dp then (.error (.assertionError []), (s, d))
                else
                  (.ok (),
                    ({ s with connections := fun p =>
                        if p = sp then s.connections sp ++ [(d.id, dp)] else s.connections p },
                     { d with connections := fun p =>
                        if p = dp then d.connections dp ++ [(s.id, sp)] else d.connections p }))
              else (.error (.assertionError ["Types incompatible."]), (s, d))
          else (.error (.assertionError []), (s, d))
        else (.error (.assertionError []), (s, d))

/-- Node.disconnect: assert the edge is present in both views, then
remove it from both lists (Python list.remove: first occurrence). -/
def Node.disconnect : Node × String → Node × String → Except PyError Unit × (Node × Node)
  | (s, sp), (d, dp) =>
    if (d.id, dp) ∈ s.connections sp then
      if (s.id, sp) ∈ d.connections dp then
        (.ok (),
          ({ s with connections := fun p =>
              if p = sp then (s.connections sp).erase (d.id, dp) else s.connections p },
           { d with connections := fun p =>
              if p = dp then (d.connections dp).erase (s.id, sp) else d.connections p }))
      else (.error (.assertionError []), (s, d))
    else (.error (.assertionError []), (s, d))

/-- The Constant node type of math_nodes.py: one float property "value"
defaulting to 1.0 and one output pin "out" of the simple number type. -/
def ConstantNodeType : NodeType :=
  { category := ["math"], id := "constant", name := "Constant",
    properties := [("value", .floatProperty (.ofInt 1) [] none none)],
    pin_generator := .fixedPinGenerator
      [("out", { name := "Output", in_out := "out",
                 type := .simpleDataType "number", meta_data := [] })],
    meta_data := [] }

/-- The Printer node type of math_nodes.py: no properties, one input pin
"in" of the simple number type. -/
def PrinterNodeType : NodeType :=
  { category := ["math"], id := "printer", name := "Printer",
    properties := [],
    pin_generator := .fixedPinGenerator
      [("in", { name := "Input", in_out := "in",
                type := .simpleDataType "number", meta_data := [] })],
    meta_data := [] }

/-- The Binary Operation node type of math_nodes.py: a choices property
selecting the operator and the pins a, b (in) and res (out). -/
def BinopNodeType : NodeType :=
  { category := ["math"], id := "binop", name := "Binary Operation",
    properties := [("operator_name",
      .choicesProperty "add" [] ["add", "sub", "mul", "truediv"])],
    pin_generator := .fixedPinGenerator
      [("a", { name := "A", in_out := "in",
               type := .simpleDataType "number", meta_data := [] }),
       ("b", { name := "B", in_out := "in",
               type := .simpleDataType "number", meta_data := [] }),
       ("res", { name := "Result", in_out := "out",
                 type := .simpleDataType "number", meta_data := [] })],
    meta_data := [] }

/-- operator.add with the CPython semantics reachable from node values:
numbers add (int precision promotes to float when either side is a
float), strings concatenate, a mixed pair raises TypeError. -/
def pyAdd : PyVal → PyVal → Except PyError PyVal
  | .intV a, .intV b => .ok (.intV (a + b))
  | .intV a, .floatV b => .ok (.floatV (addFloat (.ofInt a) b))
  | .floatV a, .intV b => .ok (.floatV (addFloat a (.ofInt b)))
  | .floatV a, .floatV b => .ok (.floatV (addFloat a b))
  | .strV a, .strV b => .ok (.strV (a ++ b))
  | _, _ => .error .typeError

/-- operator.sub: defined on numbers only. -/
def pySub : PyVal → PyVal → Except PyError PyVal
  | .intV a, .intV b => .ok (.intV (a - b))
  | .intV a, .floatV b => .ok (.floatV (subFloat (.ofInt a) b))
  | .floatV a, .intV b => .ok (.floatV (subFloat a (.ofInt b)))
  | .floatV a, .floatV b => .ok (.floatV (subFloat a b))
  | _, _ => .error .typeError

/-- Repetition of a string, for operator.mul on a string and an int. -/
def strRepeat (s : String) : Nat → String
  | 0 => ""
  | n + 1 => s ++ strRepeat s n

/-- operator.mul: numbers multiply; a string times an int repeats. -/
def pyMul : PyVal → PyVal → Except PyError PyVal
  | .intV a, .intV b => .ok (.intV (a * b))
  | .intV a, .floatV b => .ok (.floatV (mulFloat (.ofInt a) b))
  | .floatV a, .intV b => .ok (.floatV (mulFloat a (.ofInt b)))
  | .floatV a, .floatV b => .ok (.floatV (mulFloat a b))
  | .strV s, .intV n => .ok (.strV (strRepeat s n.toNat))
  | .intV n, .strV s => .ok (.strV (strRepeat s n.toNat))
  | _, _ => .error .typeError

/-- operator.truediv: numbers divide to a float; a zero divisor raises
ZeroDivisionError. -/
def pyTruediv : PyVal → PyVal → Except PyError PyVal
  | .intV a, .intV b =>
    if b = 0 then .error .zeroDivisionError
    else .ok (.floatV (divFloat (.ofInt a) (.ofInt b)))
  | .intV a, .floatV b =>
    if b.num = 0 then .error .zeroDivisionError else .ok (.floatV (divFloat (.ofInt a) b))
  | .floatV a, .intV b =>
    if b = 0 then .error .zeroDivisionError else .ok (.floatV (divFloat a (.ofInt b)))
  | .floatV a, .floatV b =>
    if b.num = 0 then .error .zeroDivisionError else .ok (.floatV (divFloat a b))
  | _, _ => .error .typeError

/-- MathCalculator.calc_binop: look the operator name up in the values
map, resolve it as an attribute of the operator module (an unknown name
is an AttributeError, a non string an error of getattr), and apply it to
exactly the two inputs (any other arity is a TypeError of the call). -/
def MathCalculator.calc_binop (node : Node) (ins : List PyVal) : Except PyError (List PyVal) :=
  match node.values.lookup "operator_name" with
  | none => .error (.keyError ["operator_name"])
  | some (.strV opname) =>
    match ins with
    | [a, b] =>
      match opname with
      | "add" => (pyAdd a b).map (fun r => [r])
      | "sub" => (pySub a b).map (fun r => [r])
      | "mul" => (pyMul a b).map (fun r => [r])
      | "truediv" => (pyTruediv a b).map (fun r => [r])
      | _ => .error .attributeError
    | _ =>
      match opname with
      | "add" => .error .typeError
      | "sub" => .error .typeError
      | "mul" => .error .typeError
      | "truediv" => .error .typeError
      | _ => .error .attributeError
  | some _ => .error .typeError

/-- MathCalculator.calc: dispatch on the node type id to the per type
calculation (getattr on a missing calc_ method is an AttributeError).
The returned pair is the list of outputs and the print events the call
emitted (calc_printer prints its inputs and returns no outputs;
calc_constant returns the stored value). -/
def MathCalculator.calc (node : Node) (ins : List PyVal) :
    Except PyError (List PyVal × List (List PyVal)) :=
  match node.type.id with
  | "constant" =>
    match node.values.lookup "value" with
    | none => .error (.keyError ["value"])
    | some v => .ok ([v], [])
  | "printer" => .ok ([], [ins])
  | "binop" => (MathCalculator.calc_binop node ins).map (fun outs => (outs, []))
  | _ => .error .attributeError

/-- The dependency scan of MathCalculator.evaluate: the predecessors a
node is registered with are the peer node ids recorded on its input
pins, in pin then connection order. -/
def predsOf (nodes : List (String × Node)) (name : String) : List String :=
  match nodes.lookup name with
  | none => []
  | some node => (node.input_pins).flatMap (fun kv => (node.connections kv.1).map Prod.fst)

/-- The vertex set the TopologicalSorter receives: every node id of the
mapping and every predecessor mentioned on an input pin (graphlib adds
unknown predecessors as implicit vertices), first occurrence order. -/
def allVerts (nodes : List (String × Node)) : List String :=
  (nodes.map Prod.fst ++ nodes.flatMap (fun kv => predsOf nodes kv.1)).dedup

/-- One selection step of the sorter: the first pending vertex all of
whose predecessors are done. -/
def pickReady (nodes : List (String × Node)) (done : List String) :
    List String → Option String
  | [] => none
  | p :: rest =>
    if (predsOf nodes p).all (fun b => done.contains b) then some p
    else pickReady nodes done rest

/-- Kahn elimination: repeatedly retire a ready vertex; when no pending
vertex is ready the graph has a cycle and the sort fails, which is how
TopologicalSorter.prepare detects CycleError.  The fuel is the pending
length, enough because every step retires exactly one vertex. -/
def topoLoop (nodes : List (String × Node)) :
    Nat → List String → List String → Option (List String)
  | 0, pending, acc => if pending.isEmpty then some acc.reverse else none
  | fuel + 1, pending, acc =>
    if pending.isEmpty then some acc.reverse
    else
      match pickReady nodes acc pending with
      | none => none
      | some p => topoLoop nodes fuel (pending.erase p) (p :: acc)

/-- The topological order TopologicalSorter.prepare plus the get_ready
loop traverse, or none when prepare raises CycleError.  The value map of
the evaluation does not depend on which valid order is traversed, since
each node reads only values of its predecessors. -/
def topoSort (nodes : List (String × Node)) : Option (List String) :=
  topoLoop nodes (allVerts nodes).length (allVerts nodes) []

/-- Decidable equality on Except outcomes, for evaluating theorems on
concrete inputs. -/
instance exceptDecEq {ε α : Type} [DecidableEq ε] [DecidableEq α] :
    DecidableEq (Except ε α) := fun a b =>
  match a, b with
  | .ok x, .ok y =>
    if h : x = y then .isTrue (by rw [h]) else .isFalse (fun hh => h (by injection hh))
  | .ok _, .error _ => .isFalse (fun h => Except.noConfusion h)
  | .error _, .ok _ => .isFalse (fun h => Except.noConfusion h)
  | .error x, .error y =>
    if h : x = y then .isTrue (by rw [h]) else .isFalse (fun hh => h (by injection hh))

/-- The observable outcome of MathCalculator.evaluate: ret is the value
the Python call returns, or the exception it raises; values is the final
content of the local values map keyed by (node id, pin id); printed
lists the print events of the calculation capability in emission order.
A Python function body without a return statement returns None,
modelled as ok none; returning the values map would be ok (some m). -/
structure EvalTrace where
  ret : Except PyError (Option (List ((String × String) × PyVal)))
  values : List ((String × String) × PyVal)
  printed : List (List PyVal)
  deriving DecidableEq, Repr

/-- Dict assignment on the values map: overwrite the key in place or
append it. -/
def storeVal (values : List ((String × String) × PyVal)) (k : String × String) (v : PyVal) :
    List ((String × String) × PyVal) :=
  match values with
  | [] => [(k, v)]
  | (k0, v0) :: rest => if k0 = k then (k0, v) :: rest else (k0, v0) :: storeVal rest k v

/-- The input gathering of the evaluate loop: for every input pin, in
declaration order, and every recorded peer (tn, tp), the value stored
under that peer key; a missing key is the KeyError the spec calls
MissingValueError. -/
def gatherIns (values : List ((String × String) × PyVal)) (node : Node) :
    Except PyError (List PyVal) :=
  (node.input_pins.flatMap (fun kv => node.connections kv.1)).mapM
    (fun t => match values.lookup t with
      | some v => .ok v
      | none => .error (.keyError [t.1, t.2]))

/-- The processing loop of MathCalculator.evaluate over a fixed
topological order: look the node up (a vertex absent from the mapping is
the KeyError of nodes[name]), gather its inputs, run the calculation,
and zip the outputs onto the output pins in declaration order. -/
def evalLoop (nodes : List (String × Node)) :
    List String → List ((String × String) × PyVal) → List (List PyVal) → EvalTrace
  | [], values, printed => ⟨.ok none, values, printed⟩
  | name :: rest, values, printed =>
    match nodes.lookup name with
    | none => ⟨.error (.keyError [name]), values, printed⟩
    | some node =>
      match gatherIns values node with
      | .error e => ⟨.error e, values, printed⟩
      | .ok ins =>
        match MathCalculator.calc node ins with
        | .error e => ⟨.error e, values, printed⟩
        | .ok (outs, evs) =>
          let stored := (List.zip (node.output_pins.map Prod.fst) outs).foldl
            (fun acc pv => storeVal acc (name, pv.1) pv.2) values
          evalLoop nodes rest stored (printed ++ evs)

/-- MathCalculator.evaluate: register every node with its predecessors,
run prepare (which raises CycleError on a cyclic dependency relation
before any value is computed or any calculation invoked), then process
the nodes in topological order.  The trace records the raised exception
or the returned None next to the final values map and print events. -/
def MathCalculator.evaluate (nodes : List (String × Node)) : EvalTrace :=
  match topoSort nodes with
  | none => ⟨.error .cycleError, [], []⟩
  | some order => evalLoop nodes order [] []

/-- The node v1 = constant(5) as created by the shell (create parses 5
with float), before any wiring. -/
def demoV1pre : Node :=
  { id := "v1", type := ConstantNodeType, values := [("value", .floatV (.ofInt 5))],
    pins := [("out", { name := "Output", in_out := "out",
                       type := .simpleDataType "number", meta_data := [] })],
    connections := fun _ => [], meta_data := [] }

/-- The node v2 = constant(7) before wiring. -/
def demoV2pre : Node :=
  { id := "v2", type := ConstantNodeType, values := [("value", .floatV (.ofInt 7))],
    pins := [("out", { name := "Output", in_out := "out",
                       type := .simpleDataType "number", meta_data := [] })],
    connections := fun _ => [], meta_data := [] }

/-- The node a1 = binop(add) before wiring. -/
def demoA1pre : Node :=
  { id := "a1", type := BinopNodeType, values := [("operator_name", .strV "add")],
    pins := [("a", { name := "A", in_out := "in",
                     type := .simpleDataType "number", meta_data := [] }),
             ("b", { name := "B", in_out := "in",
                     type := .simpleDataType "number", meta_data := [] }),
             ("res", { name := "Result", in_out := "out",
                       type := .simpleDataType "number", meta_data := [] })],
    connections := fun _ => [], meta_data := [] }

/-- The node s1 = binop(sub) before wiring. -/
def demoS1pre : Node :=
  { id := "s1", type := BinopNodeType, values := [("operator_name", .strV "sub")],
    pins := [("a", { name := "A", in_out := "in",
                     type := .simpleDataType "number", meta_data := [] }),
             ("b", { name := "B", in_out := "in",
                     type := .simpleDataType "number", meta_data := [] }),
             ("res", { name := "Result", in_out := "out",
                       type := .simpleDataType "number", meta_data := [] })],
    connections := fun _ => [], meta_data := [] }

/-- The node p1 = printer before wiring. -/
def demoP1pre : Node :=
  { id := "p1", type := PrinterNodeType, values := [],
    pins := [("in", { name := "Input", in_out := "in",
                      type := .simpleDataType "number", meta_data := [] })],
    connections := fun _ => [], meta_data := [] }

/-- v1 after the six shell connects: out feeds a1.a and s1.a. -/
def demoV1 : Node :=
  { demoV1pre with connections := fun p => if p = "out" then [("a1", "a"), ("s1", "a")] else [] }

/-- v2 after wiring: out feeds a1.b and s1.b. -/
def demoV2 : Node :=
  { demoV2pre with connections := fun p => if p = "out" then [("a1", "b"), ("s1", "b")] else [] }

/-- a1 after wiring: a from v1.out, b from v2.out, res feeds p1.in. -/
def demoA1 : Node :=
  { demoA1pre with connections := fun p =>
      if p = "a" then [("v1", "out")]
      else if p = "b" then [("v2", "out")]
      else if p = "res" then [("p1", "in")]
      else [] }

/-- s1 after wiring: a from v1.out, b from v2.out, res feeds p1.in. -/
def demoS1 : Node :=
  { demoS1pre with connections := fun p =>
      if p = "a" then [("v1", "out")]
      else if p = "b" then [("v2", "out")]
      else if p = "res" then [("p1", "in")]
      else [] }

/-- p1 after wiring: in fed by a1.res then s1.res, in connect order. -/
def demoP1 : Node :=
  { demoP1pre with connections := fun p =>
      if p = "in" then [("a1", "res"), ("s1", "res")] else [] }

/-- The closed graph of the end to end evaluation scenario, in shell
creation order. -/
def demoGraph : List (String × Node) :=
  [("v1", demoV1), ("v2", demoV2), ("a1", demoA1), ("s1", demoS1), ("p1", demoP1)]

/-- A minimal node type with one input and one output pin, for the
cyclic two node graph. -/
def LoopNodeType : NodeType :=
  { category := [], id := "loop", name := "Loop", properties := [],
    pin_generator := .fixedPinGenerator
      [("in", { name := "Input", in_out := "in",
                type := .simpleDataType "number", meta_data := [] }),
       ("out", { name := "Output", in_out := "out",
                 type := .simpleDataType "number", meta_data := [] })],
    meta_data := [] }

/-- Node A of the cyclic graph: A.out feeds B.in and A.in is fed by
B.out. -/
def cycNodeA : Node :=
  { id := "A", type := LoopNodeType, values := [],
    pins := [("in", { name := "Input", in_out := "in",
                      type := .simpleDataType "number", meta_data := [] }),
             ("out", { name := "Output", in_out := "out",
                       type := .simpleDataType "number", meta_data := [] })],
    connections := fun p =>
      if p = "out" then [("B", "in")] else if p = "in" then [("B", "out")] else [],
    meta_data := [] }

/-- Node B of the cyclic graph: B.out feeds A.in and B.in is fed by
A.out. -/
def cycNodeB : Node :=
  { id := "B", type := LoopNodeType, values := [],
    pins := [("in", { name := "Input", in_out := "in",
                      type := .simpleDataType "number", meta_data := [] }),
             ("out", { name := "Output", in_out := "out",
                       type := .simpleDataType "number", meta_data := [] })],
    connections := fun p =>
      if p = "out" then [("A", "in")] else if p = "in" then [("A", "out")] else [],
    meta_data := [] }

/-- The cyclic graph of the testable properties section: A.out to B.in
and B.out to A.in. -/
def cycGraph : List (String × Node) := [("A", cycNodeA), ("B", cycNodeB)]

/-- The connection relation the evaluator sorts by: depEdge nodes b a
holds when an edge is recorded from the output side of node b into an
input pin of node a (b is a predecessor of a), so a must run after b. -/
def depEdge (nodes : List (String × Node)) (b a : String) : Prop :=
  b ∈ predsOf nodes a

instance (nodes : List (String × Node)) (b a : String) :
    Decidable (depEdge nodes b a) := by
  unfold depEdge; infer_instance

/-- The Python type objects used as registry keys by the code generation
engine: one tag per class of generatable value (pin generators,
properties, data types). -/
inductive TyTag where
  | fixedPinGeneratorT
  | chainPinGeneratorsT
  | simplePropertyPinGeneratorT
  | floatPropertyT
  | intPropertyT
  | choicesPropertyT
  | anyDataTypeT
  | simpleDataTypeT
  | externalDataTypeT
  deriving DecidableEq, Repr

/-- The class name of a tag, as it appears in a KeyError. -/
def TyTag.pyName : TyTag → String
  | .fixedPinGeneratorT => "FixedPinGenerator"
  | .chainPinGeneratorsT => "ChainPinGenerators"
  | .simplePropertyPinGeneratorT => "SimplePropertyPinGenerator"
  | .floatPropertyT => "FloatProperty"
  | .intPropertyT => "IntProperty"
  | .choicesPropertyT => "ChoicesProperty"
  | .anyDataTypeT => "AnyDataType"
  | .simpleDataTypeT => "SimpleDataType"
  | .externalDataTypeT => "ExternalDataType"

/-- The tag (Python type) of a DataType value. -/
def dtTag : DataType → TyTag
  | .anyDataType _ => .anyDataTypeT
  | .simpleDataType _ => .simpleDataTypeT
  | .externalDataType _ => .externalDataTypeT

/-- A value handed to Generating.generate: the engine is invoked on pin
generators, properties and data types. -/
inductive GenValue where
  | pinGenV (g : PinGenerator)
  | propV (p : Property)
  | dataTypeV (d : DataType)

/-- type(obj): the registry key of a value. -/
def GenValue.tyTag : GenValue → TyTag
  | .pinGenV (.fixedPinGenerator _) => .fixedPinGeneratorT
  | .pinGenV (.chainPinGenerators _) => .chainPinGeneratorsT
  | .pinGenV (.simplePropertyPinGenerator _ _ _ _) => .simplePropertyPinGeneratorT
  | .propV (.floatProperty _ _ _ _) => .floatPropertyT
  | .propV (.intProperty _ _ _ _) => .intPropertyT
  | .propV (.choicesProperty _ _ _) => .choicesPropertyT
  | .dataTypeV d => dtTag d

/-- Keys of the accumulator dict of a Generating context: generate
records under the type object of the value, node_type records under the
NodeType instance itself (NodeType hashes by identity, eq=False). -/
inductive GenKey where
  | tyKey (t : TyTag)
  | ntKey (nt : NodeType)
  deriving DecidableEq

/-- A dynamic generator stored in the registry: either the wrapper of a
non callable registration (a constant string, also the empty default
the RegisterManager fills in), or one of the two handler functions
default_js.py defines. -/
inductive DynFun where
  | constFun (s : String)
  | fixedPinGenHandler
  | simpleDataTypeHandler
  deriving DecidableEq, Repr

/-- JSGenerator of js_generator.py: the registry of static fragments and
dynamic generators, keyed by type tag. -/
structure JSGenerator where
  static : List (TyTag × Option String)
  dynamic : List (TyTag × DynFun)
  deriving DecidableEq

/-- JSGenerator.register: a second registration of the same tag is a
ValueError; a non callable dynamic argument is wrapped into a constant
function (here arriving already as DynFun.constFun). -/
def JSGenerator.register (g : JSGenerator) (t : TyTag) (staticFrag : Option String)
    (dyn : DynFun) : Except PyError JSGenerator :=
  if (g.static.lookup t).isSome then .error (.valueError [t.pyName])
  else .ok { static := g.static ++ [(t, staticFrag)], dynamic := g.dynamic ++ [(t, dyn)] }

/-- Generating of js_generator.py: one generation run, holding the
registry and the accumulator of code blocks. -/
structure Generating where
  generator : JSGenerator
  code_blocks : List (GenKey × Option String)

/-- Dict assignment into the accumulator: overwrite the key in place or
append it at the end. -/
def insertBlock (bs : List (GenKey × Option String)) (k : GenKey) (v : Option String) :
    List (GenKey × Option String) :=
  match bs with
  | [] => [(k, v)]
  | (k0, v0) :: rest => if k0 = k then (k0, v) :: rest else (k0, v0) :: insertBlock rest k v

/-- Whether the accumulator already holds a key. -/
def hasKey (bs : List (GenKey × Option String)) (k : GenKey) : Bool :=
  bs.any (fun kv => kv.1 == k)

/-- How many accumulator entries carry a key. -/
def countKey (bs : List (GenKey × Option String)) (k : GenKey) : Nat :=
  (bs.filter (fun kv => kv.1 == k)).length

/-- Generating.generate restricted to DataType values.  The dynamic
handlers registered for data types do not call back into the engine, so
this restriction is closed; the full generate below agrees with it on
data type values.  Control flow of the source: static lookup (a missing
tag is the KeyError the spec calls UnregisteredTypeError), dynamic
lookup and call, and only then the recording of the static fragment. -/
def Generating.generateDT (g : Generating) (d : DataType) :
    Except PyError String × Generating :=
  let t := dtTag d
  match g.generator.static.lookup t with
  | none => (.error (.keyError [t.pyName]), g)
  | some s =>
    match g.generator.dynamic.lookup t with
    | none => (.error (.keyError [t.pyName]), g)
    | some f =>
      match f with
      | .constFun str => (.ok str, { g with code_blocks := insertBlock g.code_blocks (.tyKey t) s })
      | .fixedPinGenHandler => (.error .attributeError, g)
      | .simpleDataTypeHandler =>
        (.ok (pyReprStr d.dtId), { g with code_blocks := insertBlock g.code_blocks (.tyKey t) s })

/-- The loop of default_js.fixed_pin_gen: for each pin, by direction,
emit an addInput or addOutput line whose type expression is the result
of a recursive generate on the pin type (recording that type's static
fragment as a side effect); any other direction raises ValueError with
the pin as argument (rendered by its name here). -/
def genPinLines (g : Generating) : List (String × Pin) → Except PyError (List String) × Generating
  | [] => (.ok [], g)
  | (n, pin) :: rest =>
    if pin.in_out = "in" then
      match g.generateDT pin.type with
      | (.error e, g1) => (.error e, g1)
      | (.ok t, g1) =>
        match genPinLines g1 rest with
        | (.ok lines, g2) => (.ok (("this.addInput(" ++ pyReprStr n ++ ", " ++ t ++ ")") :: lines), g2)
        | (.error e, g2) => (.error e, g2)
    else if pin.in_out = "out" then
      match g.generateDT pin.type with
      | (.error e, g1) => (.error e, g1)
      | (.ok t, g1) =>
        match genPinLines g1 rest with
        | (.ok lines, g2) => (.ok (("this.addOutput(" ++ pyReprStr n ++ ", " ++ t ++ ")") :: lines), g2)
        | (.error e, g2) => (.error e, g2)
    else (.error (.valueError [pin.name]), g)

/-- Application of a registered dynamic generator to a value.  A
constant returns its string.  The simple data type handler returns
repr(v.id), an attribute every DataType has, and fails with
AttributeError on values without an id.  The fixed pin generator
handler iterates v.pins, failing with AttributeError on values without
pins. -/
def Generating.applyDynV (g : Generating) (f : DynFun) (v : GenValue) :
    Except PyError String × Generating :=
  match f, v with
  | .constFun s, _ => (.ok s, g)
  | .simpleDataTypeHandler, .dataTypeV d => (.ok (pyReprStr d.dtId), g)
  | .simpleDataTypeHandler, _ => (.error .attributeError, g)
  | .fixedPinGenHandler, .pinGenV (.fixedPinGenerator pins) =>
    match genPinLines g pins with
    | (.ok lines, g1) => (.ok (String.intercalate "\n" lines), g1)
    | (.error e, g1) => (.error e, g1)
  | .fixedPinGenHandler, _ => (.error .attributeError, g)

/-- Generating.generate: look the tag of the value up in the registry
(a missing tag raises KeyError, the UnregisteredTypeError of the spec,
before anything is recorded), call the dynamic generator, then record
the static fragment into the accumulator and return the dynamic text. -/
def Generating.generate (g : Generating) (v : GenValue) : Except PyError String × Generating :=
  match g.generator.static.lookup v.tyTag with
  | none => (.error (.keyError [v.tyTag.pyName]), g)
  | some s =>
    match g.generator.dynamic.lookup v.tyTag with
    | none => (.error (.keyError [v.tyTag.pyName]), g)
    | some f =>
      match g.applyDynV f v with
      | (.error e, g1) => (.error e, g1)
      | (.ok d, g1) =>
        (.ok d, { g1 with code_blocks := insertBlock g1.code_blocks (.tyKey v.tyTag) s })

/-- Python str.format with the keyword argument name, as applied to a
generated property fragment. -/
def fmtName (s nm : String) : String := s.replace "\x7bname\x7d" nm

/-- The property loop of Generating.node_type: generate each declared
property in order and format the fragment with the property name. -/
def genProps (g : Generating) : List (String × Property) → Except PyError (List String) × Generating
  | [] => (.ok [], g)
  | (name, p) :: rest =>
    match g.generate (.propV p) with
    | (.error e, g1) => (.error e, g1)
    | (.ok s, g1) =>
      match genProps g1 rest with
      | (.ok ls, g2) => (.ok (fmtName s name :: ls), g2)
      | (.error e, g2) => (.error e, g2)

/-- Whether a line is whitespace only (such lines are normalised to
empty and ignored for the margin). -/
def isWsOnly (l : List Char) : Bool := l.all (fun c => c == ' ' || c == '\t')

/-- The leading whitespace of a line. -/
def leadingWs (l : List Char) : List Char := l.takeWhile (fun c => c == ' ' || c == '\t')

/-- Longest common prefix of two character lists. -/
def commonPre : List Char → List Char → List Char
  | a :: as, b :: bs => if a = b then a :: commonPre as bs else []
  | _, _ => []

/-- The common margin of the non empty lines. -/
def marginOf (lines : List (List Char)) : List Char :=
  match lines.filter (fun l => !l.isEmpty) with
  | [] => []
  | l :: ls => ls.foldl (fun m l2 => commonPre m (leadingWs l2)) (leadingWs l)

/-- Strip a margin from a line when the line starts with it. -/
def stripPre (margin l : List Char) : List Char :=
  if l.take margin.length = margin then l.drop margin.length else l

/-- textwrap.dedent: normalise whitespace only lines to empty, compute
the common leading whitespace of the remaining lines, and remove it
from every line start. -/
def pyDedent (text : String) : String :=
  let lines := (text.splitOn "\n").map (fun s => if isWsOnly s.data then [] else s.data)
  let m := marginOf lines
  String.intercalate "\n" (lines.map (fun l => String.mk (stripPre m l)))

/-- The dedented f-string Generating.node_type assembles: the function
declaration with the property fragments, the pin generation routine,
the title attribute and the LiteGraph registration call. -/
def nodeTypeCode (nt : NodeType) (props pin_generation : String) : String :=
  pyDedent ("\n        function " ++ nt.id ++ "()\n        \x7b\n            " ++ props
    ++ "\n            this.pin_generation = function () \x7b\n                " ++ pin_generation
    ++ "\n            \x7d;\n            this.pin_generation();\n        \x7d\n        "
    ++ nt.id ++ ".title = " ++ pyReprStr nt.name ++ ";\n        LiteGraph.registerNodeType("
    ++ pyReprStr (String.intercalate "/" (nt.category ++ [nt.id])) ++ ", " ++ nt.id ++ ")\n        ")

/-- Generating.node_type: memoised on the NodeType key, so a second call
for a type already in the accumulator returns immediately.  Otherwise
generate the pin generator fragment, then each property fragment, and
store the assembled definition under the NodeType key. -/
def Generating.node_type (g : Generating) (nt : NodeType) : Except PyError Unit × Generating :=
  if hasKey g.code_blocks (.ntKey nt) then (.ok (), g)
  else
    match g.generate (.pinGenV nt.pin_generator) with
    | (.error e, g1) => (.error e, g1)
    | (.ok pin_generation, g1) =>
      match genProps g1 nt.properties with
      | (.error e, g2) => (.error e, g2)
      | (.ok propLines, g2) =>
        let code := nodeTypeCode nt (String.intercalate ";\n            " propLines) pin_generation
        (.ok (), { g2 with code_blocks := insertBlock g2.code_blocks (.ntKey nt) (some code) })

/-- Generating.build: join the accumulated fragments in accumulator
order, skipping falsy entries (None fragments and empty strings), with
a blank line between blocks. -/
def Generating.build (g : Generating) : String :=
  String.intercalate "\n\n"
    (g.code_blocks.filterMap (fun kv =>
      match kv.2 with
      | none => none
      | some "" => none
      | some s => some s))

/-- Alloc section.  The claims about shared mutable state are about
object identity of Python dicts, which the value level model above
cannot see.  Here every mutable dict carries a heap address: a create
call draws fresh addresses from an allocation counter for the dicts it
constructs, while objects merely inserted (the template Pin instances
of a FixedPinGenerator) keep the addresses their dicts received when
the NodeType literal was built at module load.  An allocation level pin
is its immutable fields plus the address of its mutable meta_data
dict. -/
structure AllocPin where
  name : String
  in_out : String
  metaAddr : Nat
  deriving DecidableEq, Repr

/-- Allocation level node type: the declared properties and the
template pins of its FixedPinGenerator (every node type of the
repository catalog builds its pins with a FixedPinGenerator). -/
structure AllocNodeType where
  id : String
  properties : List (String × Property)
  fixedPins : List (String × AllocPin)
  deriving DecidableEq, Repr

/-- Allocation level node: the contents produced by create, plus the
addresses of the three dicts the call allocated (values, pins,
connections). -/
structure AllocNode where
  id : String
  values : List (String × PyVal)
  valuesAddr : Nat
  pins : List (String × AllocPin)
  pinsAddr : Nat
  connsAddr : Nat
  deriving DecidableEq, Repr

/-- FixedPinGenerator.build_pins at allocation level: identical to the
value level build_pins, but visibly inserting the template pin objects
themselves (with their meta_data addresses) into the node's pin dict. -/
def allocBuildPins (pins : List (String × AllocPin)) (node : AllocNode) :
    Except PyError AllocNode :=
  if pins.any (fun kv => (node.pins.lookup kv.1).isSome) then
    .error (.valueError ["Some pins already defined"])
  else .ok { node with pins := node.pins ++ pins }

/-- Allocation level rendering of NodeType.create, same control flow as
the value level create above.  The call allocates, in order: the values
dict (before the property loop), then the pins dict and the connections
defaultdict of the Node constructor call; the counter advances past
them and the next create call can reuse none of these addresses. -/
def AllocNodeType.create (nt : AllocNodeType) (node_id : String)
    (parameter : List (String × PyVal)) (ctr : Nat) :
    (Except PyError AllocNode × List (String × PyVal)) × Nat :=
  match buildValues nt.properties parameter with
  | (.error e, rest) => ((.error e, rest), ctr + 1)
  | (.ok values, rest) =>
    let node0 : AllocNode :=
      { id := node_id, values := values, valuesAddr := ctr,
        pins := [], pinsAddr := ctr + 1, connsAddr := ctr + 2 }
    match allocBuildPins nt.fixedPins node0 with
    | .error e => ((.error e, rest), ctr + 3)
    | .ok node => ((.ok node, rest), ctr + 3)

/-- The heap of mutable dict contents, by address. -/
def Heap : Type := Nat → List (String × String)

/-- The empty heap: every dict empty. -/
def emptyHeap : Heap := fun _ => []

/-- Dict assignment on string dicts. -/
def storeStr (d : List (String × String)) (k v : String) : List (String × String) :=
  match d with
  | [] => [(k, v)]
  | (k0, v0) :: rest => if k0 = k then (k0, v) :: rest else (k0, v0) :: storeStr rest k v

/-- Write one key of the dict at an address. -/
def heapWrite (h : Heap) (a : Nat) (k v : String) : Heap :=
  fun a2 => if a2 = a then storeStr (h a) k v else h a2

/-- Read one key of the dict at an address. -/
def heapRead (h : Heap) (a : Nat) (k : String) : Option String := (h a).lookup k

/-- The address of the meta_data dict of a pin of a node. -/
def AllocNode.pinMetaAddr (n : AllocNode) (pid : String) : Option Nat :=
  (n.pins.lookup pid).map AllocPin.metaAddr

/-- Mutate a key of the meta_data dict of a pin of a node. -/
def writeThroughPin (h : Heap) (n : AllocNode) (pid k v : String) : Heap :=
  match n.pinMetaAddr pid with
  | some a => heapWrite h a k v
  | none => h

/-- Observe a key of the meta_data dict of a pin of a node. -/
def readThroughPin (h : Heap) (n : AllocNode) (pid k : String) : Option String :=
  match n.pinMetaAddr pid with
  | some a => heapRead h a k
  | none => none

/-- The Constant node type at allocation level: the meta_data dict of
its template pin was allocated at module load, here at address 0. -/
def allocConstantNT : AllocNodeType :=
  { id := "constant", properties := [("value", .floatProperty (.ofInt 1) [] none none)],
    fixedPins := [("out", { name := "Output", in_out := "out", metaAddr := 0 })] }

/-- The node a first create allocConstantNT "n1" produces, with the
counter started at 1 (address 0 is the template pin meta dict). -/
def allocN1 : AllocNode :=
  { id := "n1", values := [("value", .floatV (.ofInt 1))], valuesAddr := 1,
    pins := [("out", { name := "Output", in_out := "out", metaAddr := 0 })],
    pinsAddr := 2, connsAddr := 3 }

/-- The node a second create allocConstantNT "n2" produces, continuing
from the advanced counter. -/
def allocN2 : AllocNode :=
  { id := "n2", values := [("value", .floatV (.ofInt 1))], valuesAddr := 4,
    pins := [("out", { name := "Output", in_out := "out", metaAddr := 0 })],
    pinsAddr := 5, connsAddr := 6 }

/-- The value create takes for each declared property: the popped caller
override or the default, in declaration order, with the pops threaded
exactly as the property loop performs them. -/
def takenValues : List (String × Property) → List (String × PyVal) → List (String × PyVal)
  | [], _ => []
  | (n, p) :: props, parameter =>
    match popKey parameter n with
    | (r, parameter1) => (n, r.getD p.defaultVal) :: takenValues props parameter1

/-- Whether an error identifies a string: some entry of its argument
payload contains the string.  An error with an empty payload identifies
nothing under any reading. -/
def errIdentifies (e : PyError) (s : String) : Prop :=
  ∃ a ∈ e.payload, s.data <:+: a.data

/-- A dict invariant: the keys of an association list are distinct. -/
def keysNodup {α β : Type} (bs : List (α × β)) : Prop := (bs.map Prod.fst).Nodup

instance keysNodupDec {α β : Type} [DecidableEq α] (bs : List (α × β)) :
    Decidable (keysNodup bs) := by
  unfold keysNodup; infer_instance

/-- A registry able to generate the whole Constant node type: the two
default_js handlers plus a constant fragment for FloatProperty (the
external interface lets domain modules register more handlers). -/
def demoRegistry : JSGenerator :=
  { static := [(.fixedPinGeneratorT, none), (.simpleDataTypeT, none),
               (.floatPropertyT, some "FLOAT_PROPERTY_SUPPORT")],
    dynamic := [(.fixedPinGeneratorT, .fixedPinGenHandler),
                (.simpleDataTypeT, .simpleDataTypeHandler),
                (.floatPropertyT, .constFun "this.\x7bname\x7d = 0")] }

/-- A fresh generation context over the demo registry. -/
def demoCtx : Generating := { generator := demoRegistry, code_blocks := [] }

/-- A generation context over an empty registry. -/
def emptyGenCtx : Generating :=
  { generator := { static := [], dynamic := [] }, code_blocks := [] }

/-- The validation outcome of the create property loop, by itself: walk
the declared properties, pop the override or take the default, and
validate; the outcome is the first raised error, or ok false at the
first validator that rejects, or ok true when every taken value
passes. -/
def allValidations : List (String × Property) → List (String × PyVal) → Except PyError Bool
  | [], _ => .ok true
  | (n, p) :: props, parameter =>
    match popKey parameter n with
    | (r, parameter1) =>
      match p.validate (r.getD p.defaultVal) with
      | .error e => .error e
      | .ok false => .ok false
      | .ok true => allValidations props parameter1

/-- What a generate call may do to a generation context: the registry
is read only, node type keys of the accumulator are untouched (generate
records only type tags), and the accumulator keeps distinct keys. -/
def GenFrame (g g2 : Generating) : Prop :=
  g2.generator = g.generator ∧
  (∀ nt : NodeType, hasKey g2.code_blocks (GenKey.ntKey nt) =
    hasKey g.code_blocks (GenKey.ntKey nt)) ∧
  (keysNodup g.code_blocks → keysNodup g2.code_blocks)

/-! Theorems.  Sanity lemmas first: the demo node literals are exactly
what NodeType.create produces for the shell commands of the scenario,
and the specialised data type generation agrees with the general
generate. -/

/-- Sanity: create v1 constant 5 produces the unwired demo node (and
consumes the parameter). -/
theorem create_demoV1pre :
    NodeType.create ConstantNodeType "v1" [("value", .floatV (.ofInt 5))] [] = (.ok demoV1pre, []) := rfl

/-- Sanity: create a1 binop add produces the unwired demo node. -/
theorem create_demoA1pre :
    NodeType.create BinopNodeType "a1" [("operator_name", .strV "add")] [] =
      (.ok demoA1pre, []) := rfl

/-- Sanity: create p1 printer produces the unwired demo node. -/
theorem create_demoP1pre :
    NodeType.create PrinterNodeType "p1" [] [] = (.ok demoP1pre, []) := rfl

/-- Sanity: on data type values the general generate coincides with the
specialised generateDT used inside the pin handler. -/
theorem generate_dataType_eq_generateDT (g : Generating) (d : DataType) :
    g.generate (.dataTypeV d) = g.generateDT d := by
  cases hs : g.generator.static.lookup (dtTag d) with
  | none => simp [Generating.generate, Generating.generateDT, GenValue.tyTag, hs]
  | some s =>
    cases hd : g.generator.dynamic.lookup (dtTag d) with
    | none => simp [Generating.generate, Generating.generateDT, GenValue.tyTag, hs, hd]
    | some f =>
      cases f <;>
        simp [Generating.generate, Generating.generateDT, GenValue.tyTag,
          Generating.applyDynV, hs, hd]

/-- C1 counterexample: on the closed demo graph the evaluation computes
the full value map, but the Python function returns None, not the map:
the produced values are not the return value of the call. -/
theorem evaluate_demo_map_not_returned :
    (MathCalculator.evaluate demoGraph).ret = .ok none ∧
    (MathCalculator.evaluate demoGraph).ret ≠
      .ok (some (MathCalculator.evaluate demoGraph).values) := by decide

/-- C1 (amended): evaluating the closed demo graph completes without
CycleError, computes 12.0 for (a1, res) and -2.0 for (s1, res), invokes
the printer calculation once with exactly those two values, and leaves
the produced value map in the local state while returning None. -/
theorem evaluate_demo_amended :
    (MathCalculator.evaluate demoGraph).ret = .ok none ∧
    (MathCalculator.evaluate demoGraph).values.lookup ("a1", "res") = some (.floatV (.ofInt 12)) ∧
    (MathCalculator.evaluate demoGraph).values.lookup ("s1", "res") = some (.floatV (.ofInt (-2))) ∧
    (MathCalculator.evaluate demoGraph).printed = [[.floatV (.ofInt 12), .floatV (.ofInt (-2))]] := by decide

/-- C2: on a pair of variants with no defined compatibility rule (both
operands decline the comparison) the queries do not degrade to False:
the interpreter raises TypeError, which the except NotImplementedError
clause of can_target and can_source does not catch, so the query raises
instead of returning.  The last two conjuncts show the pairs the
repository actually constructs stay total. -/
theorem can_target_undefined_pair_raises :
    DataType.can_target (.simpleDataType "number") (.externalDataType "ext") =
      .error .typeError ∧
    DataType.can_source (.externalDataType "ext") (.simpleDataType "number") =
      .error .typeError ∧
    DataType.can_target (.simpleDataType "number") (.anyDataType "any") = .ok true ∧
    DataType.can_source (.simpleDataType "number") (.anyDataType "any") = .ok true := by decide

/-- The indexed pin loop never touches the values of the node. -/
theorem buildPinsLoop_values (idT : String) (pinT : Pin) :
    ∀ (l : List Nat) (node node1 : Node),
      buildPinsLoop idT pinT l node = .ok node1 → node1.values = node.values := by
  intro l
  induction l with
  | nil =>
    intro node node1 h
    simp only [buildPinsLoop] at h
    cases h
    rfl
  | cons i rest ih =>
    intro node node1 h
    simp only [buildPinsLoop] at h
    split at h
    · cases h
    · have hv := ih _ _ h
      exact hv

mutual

/-- A pin generator never touches the values of the node it builds pins
on. -/
theorem build_pins_values : ∀ (g : PinGenerator) (node node1 : Node),
    g.build_pins node = .ok node1 → node1.values = node.values
  | .fixedPinGenerator pins, node, node1 => by
    intro h
    simp only [PinGenerator.build_pins] at h
    split at h
    · cases h
    · cases h; rfl
  | .chainPinGenerators gens, node, node1 => by
    intro h
    simp only [PinGenerator.build_pins] at h
    exact buildPinsChain_values gens node node1 h
  | .simplePropertyPinGenerator pname idT pinT cm, node, node1 => by
    intro h
    simp only [PinGenerator.build_pins] at h
    split at h
    · cases h
    · exact buildPinsLoop_values _ _ _ _ _ h
    · cases h

/-- Chained generation never touches the values either. -/
theorem buildPinsChain_values : ∀ (gens : List PinGenerator) (node node1 : Node),
    buildPinsChain gens node = .ok node1 → node1.values = node.values
  | [], node, node1 => by
    intro h
    simp only [buildPinsChain] at h
    cases h
    rfl
  | g :: rest, node, node1 => by
    intro h
    simp only [buildPinsChain] at h
    cases hg : g.build_pins node with
    | error e => rw [hg] at h; cases h
    | ok nodeMid =>
      rw [hg] at h
      rw [buildPinsChain_values rest nodeMid node1 h]
      exact build_pins_values g node nodeMid hg

end

/-- The property loop outcome decomposes into the taken values and the
validation outcome: success returns exactly the taken values, a
validator returning False turns into the bare ValueError, a raising
validator propagates. -/
theorem buildValues_fst (props : List (String × Property)) :
    ∀ params : List (String × PyVal),
      (buildValues props params).fst =
        match allValidations props params with
        | .ok true => .ok (takenValues props params)
        | .ok false => .error (.valueError [])
        | .error e => .error e := by
  induction props with
  | nil => intro params; rfl
  | cons hd props ih =>
    intro params
    obtain ⟨n, p⟩ := hd
    simp only [buildValues, allValidations, takenValues]
    cases hpk : popKey params n with
    | mk r params1 =>
      cases hv : p.validate (r.getD p.defaultVal) with
      | error e => simp
      | ok b =>
        cases b with
        | false => simp
        | true =>
          simp only []
          cases hbv : buildValues props params1 with
          | mk res params2 =>
            have ihx := ih params1
            rw [hbv] at ihx
            simp only [] at ihx
            cases hav : allValidations props params1 with
            | error e => rw [hav] at ihx; simp [ihx]
            | ok b2 =>
              cases b2 with
              | false => rw [hav] at ihx; simp [ihx]
              | true => rw [hav] at ihx; simp [ihx]

/-- C4 counterexample: creating a binop with the rejected operator name
pow raises the bare ValueError() whose payload is empty, so the error
identifies neither the failing property operator_name nor the rejected
value pow, against the claim. -/
theorem create_validation_error_is_bare :
    NodeType.create BinopNodeType "x" [("operator_name", .strV "pow")] [] =
      (.error (.valueError []), []) ∧
    ¬ errIdentifies (.valueError []) "operator_name" ∧
    ¬ errIdentifies (.valueError []) "pow" := by
  refine ⟨rfl, ?_, ?_⟩ <;> rintro ⟨a, ha, -⟩ <;> simp [PyError.payload] at ha

/-- C4 (amended): create takes for each declared property the caller
supplied override from params or else the default, runs validate on it,
and when a validator rejects the taken value it raises a bare
ValueError that identifies nothing (and no Node is produced); on
success the stored values are exactly the taken values and every
validation passed. -/
theorem create_validation_behaviour (nt : NodeType) (node_id : String)
    (params : List (String × PyVal)) (meta : List (String × String)) :
    (allValidations nt.properties params = .ok false →
      (∃ rest, NodeType.create nt node_id params meta = (.error (.valueError []), rest)) ∧
      (∀ node rest, NodeType.create nt node_id params meta ≠ (.ok node, rest)) ∧
      (∀ s, ¬ errIdentifies (.valueError []) s)) ∧
    (∀ node rest, NodeType.create nt node_id params meta = (.ok node, rest) →
      node.values = takenValues nt.properties params ∧
      allValidations nt.properties params = .ok true) := by
  have hbf := buildValues_fst nt.properties params
  constructor
  · intro hfail
    rw [hfail] at hbf
    simp only [] at hbf
    refine ⟨⟨(buildValues nt.properties params).snd, ?_⟩, ?_, ?_⟩
    · simp only [NodeType.create]
      cases hbv : buildValues nt.properties params with
      | mk res rest =>
        rw [hbv] at hbf
        simp only [] at hbf
        rw [hbf]
    · intro node rest h
      simp only [NodeType.create] at h
      cases hbv : buildValues nt.properties params with
      | mk res rest2 =>
        rw [hbv] at hbf h
        simp only [] at hbf
        rw [hbf] at h
        simp at h
    · rintro s ⟨a, ha, -⟩
      simp [PyError.payload] at ha
  · intro node rest h
    simp only [NodeType.create] at h
    cases hbv : buildValues nt.properties params with
    | mk res rest2 =>
      rw [hbv] at hbf h
      simp only [] at hbf
      cases hav : allValidations nt.properties params with
      | error e => rw [hav] at hbf; rw [hbf] at h; simp at h
      | ok b =>
        cases b with
        | false => rw [hav] at hbf; rw [hbf] at h; simp at h
        | true =>
          rw [hav] at hbf
          rw [hbf] at h
          simp only [] at h
          refine ⟨?_, rfl⟩
          cases hbp : nt.pin_generator.build_pins
              { id := node_id, type := nt, values := takenValues nt.properties params,
                pins := [], connections := fun _ => [], meta_data := meta } with
          | error e => rw [hbp] at h; simp at h
          | ok node2 =>
            rw [hbp] at h
            simp only [Prod.mk.injEq] at h
            obtain ⟨h1, -⟩ := h
            cases h1
            exact build_pins_values _ _ _ hbp

/-- C4 witness for the amended theorem at the pow input. -/
theorem create_validation_behaviour_witness :
    (∃ rest, NodeType.create BinopNodeType "x" [("operator_name", .strV "pow")] [] =
      (.error (.valueError []), rest)) ∧
    (∀ s, ¬ errIdentifies (.valueError []) s) :=
  have h := create_validation_behaviour BinopNodeType "x" [("operator_name", .strV "pow")] []
  have hfail : allValidations BinopNodeType.properties [("operator_name", .strV "pow")] =
      .ok false := by decide
  ⟨(h.1 hfail).1, (h.1 hfail).2.2⟩

/-- On a mapping with distinct keys, pop removes exactly the entries
with the popped key. -/
theorem popKey_snd (n : String) :
    ∀ params : List (String × PyVal), keysNodup params →
      (popKey params n).snd = params.filter (fun kv => !(kv.1 == n)) := by
  intro params
  induction params with
  | nil => intro h; simp [popKey]
  | cons kv rest ih =>
    intro h
    obtain ⟨k, v⟩ := kv
    have hnd : keysNodup rest ∧ k ∉ rest.map Prod.fst := by
      constructor
      · exact (List.nodup_cons.mp h).2
      · exact (List.nodup_cons.mp h).1
    by_cases hk : k = n
    · subst hk
      simp only [popKey, if_pos rfl]
      have : rest.filter (fun kv => !(kv.1 == k)) = rest := by
        apply List.filter_eq_self.mpr
        intro a ha
        have : a.1 ≠ k := by
          intro hh
          exact hnd.2 (hh ▸ List.mem_map_of_mem Prod.fst ha)
        simp [this]
      simp [this]
    · simp only [popKey, if_neg hk]
      cases hpk : popKey rest n with
      | mk r rest1 =>
        have := ih hnd.1
        rw [hpk] at this
        simp only [] at this
        simp [this, hk]

/-- On a successful property loop the leftover parameter mapping is the
original one with every declared property key removed. -/
theorem buildValues_ok_snd :
    ∀ (props : List (String × Property)) (params : List (String × PyVal))
      (values rest : List (String × PyVal)), keysNodup params →
      buildValues props params = (.ok values, rest) →
      rest = params.filter (fun kv => !((props.map Prod.fst).contains kv.1)) := by
  intro props
  induction props with
  | nil =>
    intro params values rest h hbv
    simp only [buildValues] at hbv
    injection hbv with h1 h2
    simp [← h2]
  | cons hd props ih =>
    intro params values rest h hbv
    obtain ⟨n, p⟩ := hd
    simp only [buildValues] at hbv
    cases hpk : popKey params n with
    | mk r params1 =>
      rw [hpk] at hbv
      simp only [] at hbv
      have hps : params1 = params.filter (fun kv => !(kv.1 == n)) := by
        have := popKey_snd n params h
        rw [hpk] at this
        exact this
      have hnd1 : keysNodup params1 := by
        rw [hps]
        exact List.Nodup.sublist (List.Sublist.map Prod.fst (List.filter_sublist params)) h
      cases hv : p.validate (r.getD p.defaultVal) with
      | error e => rw [hv] at hbv; cases hbv
      | ok b =>
        rw [hv] at hbv
        cases b with
        | false => simp at hbv
        | true =>
          simp only [] at hbv
          cases hbv2 : buildValues props params1 with
          | mk res params2 =>
            rw [hbv2] at hbv
            cases res with
            | error e => simp at hbv
            | ok values2 =>
              simp only [Prod.mk.injEq] at hbv
              obtain ⟨-, h2⟩ := hbv
              have := ih params1 values2 params2 hnd1 hbv2
              rw [← h2, this, hps, List.filter_filter]
              congr 1
              funext kv
              simp [List.contains_cons, Bool.and_comm]

/-- C10 counterexample: a successful create does not leave the caller
supplied params unchanged: the pop of the property loop removes the
consumed key, and the caller observes an emptied mapping. -/
theorem create_mutates_params :
    (NodeType.create ConstantNodeType "n" [("value", .floatV (.ofInt 5))] []).fst.isOk = true ∧
    (NodeType.create ConstantNodeType "n" [("value", .floatV (.ofInt 5))] []).snd = [] ∧
    ([] : List (String × PyVal)) ≠ [("value", .floatV (.ofInt 5))] := by
  refine ⟨rfl, rfl, ?_⟩
  intro h
  cases h

/-- C10 (amended): create consumes the overrides it reads: after a
successful call the caller supplied mapping (with distinct keys, as any
Python dict) holds exactly the entries whose key is not a declared
property, every consumed key having been popped. -/
theorem create_consumes_params (nt : NodeType) (node_id : String)
    (params : List (String × PyVal)) (meta : List (String × String))
    (hnd : keysNodup params)
    (hok : (NodeType.create nt node_id params meta).fst.isOk = true) :
    (NodeType.create nt node_id params meta).snd =
      params.filter (fun kv => !((nt.properties.map Prod.fst).contains kv.1)) := by
  simp only [NodeType.create] at hok ⊢
  cases hbv : buildValues nt.properties params with
  | mk res rest =>
    cases res with
    | error e =>
      rw [hbv] at hok
      simp [Except.isOk, Except.toBool] at hok
    | ok values =>
      simp only []
      have hsnd := buildValues_ok_snd nt.properties params values rest hnd hbv
      cases hbp : nt.pin_generator.build_pins
          { id := node_id, type := nt, values := values, pins := [],
            connections := fun _ => [], meta_data := meta } with
      | error e => simp [hsnd]
      | ok node => simp [hsnd]

/-- C10 witness: the amended theorem at the constant node type with an
extra unconsumed key. -/
theorem create_consumes_params_witness :
    (NodeType.create ConstantNodeType "n"
        [("value", .floatV (.ofInt 5)), ("extra", .strV "x")] []).snd =
      ([("value", PyVal.floatV (.ofInt 5)), ("extra", .strV "x")].filter
        (fun kv => !((ConstantNodeType.properties.map Prod.fst).contains kv.1))) :=
  create_consumes_params ConstantNodeType "n"
    [("value", .floatV (.ofInt 5)), ("extra", .strV "x")] []
    (by decide) (by decide)

/-- C3: connect raises on each precondition violation of the claim (a
source pin whose direction is not out, a dest pin whose direction is
not in, a compatibility query that does not hold, or the exact edge
already present from either view), and whenever connect raises, both
endpoint objects are returned untouched: every assert precedes the two
appends, which happen together or not at all. -/
theorem connect_error_conditions_atomic (s d : Node) (sp dp : String) :
    (((∃ p, s.pins.lookup sp = some p ∧ p.in_out ≠ "out") ∨
      (∃ q, d.pins.lookup dp = some q ∧ q.in_out ≠ "in") ∨
      (∃ p q, s.pins.lookup sp = some p ∧ d.pins.lookup dp = some q ∧
        p.type.can_target q.type ≠ .ok true) ∨
      (d.id, dp) ∈ s.connections sp ∨ (s.id, sp) ∈ d.connections dp) →
      (Node.connect (s, sp) (d, dp)).fst.isOk = false) ∧
    ((Node.connect (s, sp) (d, dp)).fst.isOk = false →
      (Node.connect (s, sp) (d, dp)).snd = (s, d)) := by
  cases hs : s.pins.lookup sp with
  | none =>
    exact ⟨fun _ => by simp [Node.connect, hs, Except.isOk, Except.toBool],
           fun _ => by simp [Node.connect, hs]⟩
  | some spin =>
    cases hd : d.pins.lookup dp with
    | none =>
      exact ⟨fun _ => by simp [Node.connect, hs, hd, Except.isOk, Except.toBool],
             fun _ => by simp [Node.connect, hs, hd]⟩
    | some dpin =>
      by_cases hso : spin.in_out = "out"
      · by_cases hdi : dpin.in_out = "in"
        · cases hct : spin.type.can_target dpin.type with
          | error e =>
            exact ⟨fun _ => by
                simp [Node.connect, hs, hd, hso, hdi, hct, Except.isOk, Except.toBool],
              fun _ => by simp [Node.connect, hs, hd, hso, hdi, hct]⟩
          | ok compat =>
            cases compat with
            | false =>
              exact ⟨fun _ => by
                  simp [Node.connect, hs, hd, hso, hdi, hct, Except.isOk, Except.toBool],
                fun _ => by simp [Node.connect, hs, hd, hso, hdi, hct]⟩
            | true =>
              by_cases hm1 : (d.id, dp) ∈ s.connections sp
              · exact ⟨fun _ => by
                    simp [Node.connect, hs, hd, hso, hdi, hct, hm1, Except.isOk, Except.toBool],
                  fun _ => by simp [Node.connect, hs, hd, hso, hdi, hct, hm1]⟩
              · by_cases hm2 : (s.id, sp) ∈ d.connections dp
                · exact ⟨fun _ => by
                      simp [Node.connect, hs, hd, hso, hdi, hct, hm1, hm2,
                        Except.isOk, Except.toBool],
                    fun _ => by simp [Node.connect, hs, hd, hso, hdi, hct, hm1, hm2]⟩
                · constructor
                  · intro hyp
                    exfalso
                    rcases hyp with ⟨p, hp, hne⟩ | ⟨q, hq, hne⟩ | ⟨p, q, hp, hq, hne⟩ | hm | hm
                    · injection hp with hp
                      exact hne (hp ▸ hso)
                    · injection hq with hq
                      exact hne (hq ▸ hdi)
                    · injection hp with hp
                      injection hq with hq
                      rw [← hp, ← hq] at hne
                      exact hne hct
                    · exact hm1 hm
                    · exact hm2 hm
                  · intro hok
                    rw [show (Node.connect (s, sp) (d, dp)).fst = .ok () from by
                      simp [Node.connect, hs, hd, hso, hdi, hct, hm1, hm2]] at hok
                    simp [Except.isOk, Except.toBool] at hok
        · exact ⟨fun _ => by simp [Node.connect, hs, hd, hso, hdi, Except.isOk, Except.toBool],
                 fun _ => by simp [Node.connect, hs, hd, hso, hdi]⟩
      · exact ⟨fun _ => by simp [Node.connect, hs, hd, hso, Except.isOk, Except.toBool],
               fun _ => by simp [Node.connect, hs, hd, hso]⟩

/-- C3 witness: wiring the printer input pin as a source raises and
leaves both nodes untouched. -/
theorem connect_error_conditions_atomic_witness :
    (Node.connect (demoP1pre, "in") (demoA1pre, "a")).fst.isOk = false ∧
    (Node.connect (demoP1pre, "in") (demoA1pre, "a")).snd = (demoP1pre, demoA1pre) := by
  have h := connect_error_conditions_atomic demoP1pre demoA1pre "in" "a"
  have h1 := h.1 (Or.inl ⟨Pin.mk "Input" "in" (.simpleDataType "number") [], by rfl, by decide⟩)
  exact ⟨h1, h.2 h1⟩

/-- C7: when the directions are (out, in), the compatibility query
holds and the edge is absent from both views, connect succeeds and
appends the edge to both endpoint lists, and the disconnect of the same
edge restores both nodes exactly (the appended edge is the only
occurrence, and list removal erases the first occurrence). -/
theorem connect_disconnect_roundtrip (s d : Node) (sp dp : String) (spin dpin : Pin)
    (hs : s.pins.lookup sp = some spin) (hd : d.pins.lookup dp = some dpin)
    (hso : spin.in_out = "out") (hdi : dpin.in_out = "in")
    (hct : spin.type.can_target dpin.type = .ok true)
    (hm1 : (d.id, dp) ∉ s.connections sp) (hm2 : (s.id, sp) ∉ d.connections dp) :
    ∃ s1 d1, Node.connect (s, sp) (d, dp) = (.ok (), (s1, d1)) ∧
      s1.connections sp = s.connections sp ++ [(d.id, dp)] ∧
      d1.connections dp = d.connections dp ++ [(s.id, sp)] ∧
      Node.disconnect (s1, sp) (d1, dp) = (.ok (), (s, d)) := by
  have hc : Node.connect (s, sp) (d, dp) =
      (.ok (),
        ({ s with connections := fun p =>
            if p = sp then s.connections sp ++ [(d.id, dp)] else s.connections p },
         { d with connections := fun p =>
            if p = dp then d.connections dp ++ [(s.id, sp)] else d.connections p })) := by
    simp [Node.connect, hs, hd, hso, hdi, hct, hm1, hm2]
  refine ⟨_, _, hc, ?_, ?_, ?_⟩
  · simp
  · simp
  · simp [Node.disconnect]
    constructor
    · apply Node.ext <;> try rfl
      funext p
      by_cases hp : p = sp
      · subst hp
        simp [List.erase_append_right _ hm1]
      · simp [hp]
    · apply Node.ext <;> try rfl
      funext p
      by_cases hp : p = dp
      · subst hp
        simp [List.erase_append_right _ hm2]
      · simp [hp]

/-- C7 witness: the round trip on the unwired v1 and a1 nodes. -/
theorem connect_disconnect_roundtrip_witness :
    ∃ s1 d1, Node.connect (demoV1pre, "out") (demoA1pre, "a") = (.ok (), (s1, d1)) ∧
      s1.connections "out" = demoV1pre.connections "out" ++ [(demoA1pre.id, "a")] ∧
      d1.connections "a" = demoA1pre.connections "a" ++ [(demoV1pre.id, "out")] ∧
      Node.disconnect (s1, "out") (d1, "a") = (.ok (), (demoV1pre, demoA1pre)) :=
  connect_disconnect_roundtrip demoV1pre demoA1pre "out" "a"
    (Pin.mk "Output" "out" (.simpleDataType "number") [])
    (Pin.mk "A" "in" (.simpleDataType "number") [])
    (by rfl) (by rfl) rfl rfl (by decide) (by decide) (by decide)

/-- Accessibility transfers to the transitive closure of a relation. -/
theorem accTransGen {α : Type} {r : α → α → Prop} {a : α} (h : Acc r a) :
    Acc (Relation.TransGen r) a := by
  induction h with
  | intro x hx ih =>
    refine Acc.intro x (fun y hy => ?_)
    cases hy with
    | single hstep => exact ih _ hstep
    | tail h1 h2 => exact (ih _ h2).inv h1

/-- An accessible element of a transitive relation lies on no cycle. -/
theorem noCycleOfAcc {α : Type} {r : α → α → Prop} {a : α}
    (h : Acc (Relation.TransGen r) a) : ¬ Relation.TransGen r a a := by
  induction h with
  | intro x hx ih => exact fun hc => ih x hc hc

/-- A boolean contains check agrees with membership. -/
theorem containsMem {a : String} : ∀ l : List String, l.contains a = true ↔ a ∈ l := by
  intro l
  induction l with
  | nil => simp
  | cons x xs ih => simp

/-- A successful lookup puts the key among the mapped keys. -/
theorem lookup_mem_keys {β : Type} (a : String) :
    ∀ (l : List (String × β)) (b : β), l.lookup a = some b → a ∈ l.map Prod.fst := by
  intro l
  induction l with
  | nil => intro b h; cases h
  | cons kv rest ih =>
    intro b h
    obtain ⟨k, v⟩ := kv
    simp only [List.lookup] at h
    by_cases hk : a = k
    · simp [hk]
    · have hbeq : (a == k) = false := by simpa using hk
      rw [hbeq] at h
      simp only [] at h
      simp [ih b h]

/-- The selected vertex is pending and all of its predecessors are
done. -/
theorem pickReady_spec (nodes : List (String × Node)) (done : List String) :
    ∀ (l : List String) (p : String), pickReady nodes done l = some p →
      p ∈ l ∧ ∀ b ∈ predsOf nodes p, b ∈ done := by
  intro l
  induction l with
  | nil => intro p h; cases h
  | cons q rest ih =>
    intro p h
    simp only [pickReady] at h
    split at h
    · next hall =>
      injection h with h
      subst h
      refine ⟨List.mem_cons_self _ _, fun b hb => ?_⟩
      have := List.all_eq_true.mp hall b hb
      exact (containsMem done).mp this
    · obtain ⟨hp, hpred⟩ := ih p h
      exact ⟨List.mem_cons_of_mem _ hp, hpred⟩

/-- When the Kahn loop completes, every pending vertex is accessible
along the connection relation: each retired vertex has all its
predecessors retired before it. -/
theorem topoLoop_acc (nodes : List (String × Node)) :
    ∀ (fuel : Nat) (pending acc : List String) (order : List String),
      (∀ x ∈ acc, Acc (depEdge nodes) x) →
      topoLoop nodes fuel pending acc = some order →
      ∀ x ∈ pending, Acc (depEdge nodes) x := by
  intro fuel
  induction fuel with
  | zero =>
    intro pending acc order hacc h
    simp only [topoLoop] at h
    split at h
    · next hemp =>
      intro x hx
      rw [List.isEmpty_iff.mp hemp] at hx
      cases hx
    · cases h
  | succ fuel ih =>
    intro pending acc order hacc h
    simp only [topoLoop] at h
    split at h
    · next hemp =>
      intro x hx
      rw [List.isEmpty_iff.mp hemp] at hx
      cases hx
    · cases hpr : pickReady nodes acc pending with
      | none => rw [hpr] at h; cases h
      | some p =>
        rw [hpr] at h
        simp only [] at h
        obtain ⟨hpmem, hpreds⟩ := pickReady_spec nodes acc pending p hpr
        have haccp : Acc (depEdge nodes) p :=
          Acc.intro p (fun b hb => hacc b (hpreds b hb))
        have hacc1 : ∀ x ∈ p :: acc, Acc (depEdge nodes) x := by
          intro x hx
          rcases List.mem_cons.mp hx with hx | hx
          · exact hx ▸ haccp
          · exact hacc x hx
        intro x hx
        by_cases hxp : x = p
        · exact hxp ▸ haccp
        · exact ih (pending.erase p) (p :: acc) order hacc1 h x
            ((List.mem_erase_of_ne hxp).mpr hx)

/-- A vertex closing a cycle is a key of the node mapping, hence among
the sorter vertices. -/
theorem cycle_vert_mem (nodes : List (String × Node)) (a : String)
    (h : Relation.TransGen (depEdge nodes) a a) : a ∈ allVerts nodes := by
  have hpred : ∃ c, c ∈ predsOf nodes a := by
    cases h with
    | single hstep => exact ⟨a, hstep⟩
    | tail h1 h2 => exact ⟨_, h2⟩
  obtain ⟨c, hc⟩ := hpred
  have hkey : a ∈ nodes.map Prod.fst := by
    unfold predsOf at hc
    cases hl : nodes.lookup a with
    | none => rw [hl] at hc; cases hc
    | some node => exact lookup_mem_keys a nodes node hl
  unfold allVerts
  rw [List.mem_dedup]
  exact List.mem_append.mpr (Or.inl hkey)

/-- C6: a graph whose connection relation contains a cycle makes the
evaluator raise CycleError out of prepare, before any per type
calculation is invoked and before any value is stored: the trace is the
error with an empty value map and no print events. -/
theorem evaluate_cycle_error (nodes : List (String × Node))
    (h : ∃ a, Relation.TransGen (depEdge nodes) a a) :
    MathCalculator.evaluate nodes = ⟨.error .cycleError, [], []⟩ := by
  obtain ⟨a, ha⟩ := h
  cases hts : topoSort nodes with
  | none => simp [MathCalculator.evaluate, hts]
  | some order =>
    exfalso
    unfold topoSort at hts
    have hacc : Acc (depEdge nodes) a :=
      topoLoop_acc nodes (allVerts nodes).length (allVerts nodes) [] order
        (by intro x hx; cases hx) hts a (cycle_vert_mem nodes a ha)
    exact noCycleOfAcc (accTransGen hacc) ha

/-- C6 witness: the two node cycle A.out to B.in, B.out to A.in. -/
theorem evaluate_cycle_error_witness :
    MathCalculator.evaluate cycGraph = ⟨.error .cycleError, [], []⟩ :=
  evaluate_cycle_error cycGraph
    ⟨"A", Relation.TransGen.tail
      (Relation.TransGen.single (show depEdge cycGraph "A" "B" by decide))
      (show depEdge cycGraph "B" "A" by decide)⟩

/-- A successful allocation level create draws exactly the three fresh
dict addresses starting at the counter and installs the template pins
verbatim. -/
theorem allocCreate_ok_spec (nt : AllocNodeType) (node_id : String)
    (parameter : List (String × PyVal)) (ctr : Nat) (n : AllocNode)
    (rest : List (String × PyVal)) (ctr2 : Nat)
    (h : AllocNodeType.create nt node_id parameter ctr = ((.ok n, rest), ctr2)) :
    n.valuesAddr = ctr ∧ n.pinsAddr = ctr + 1 ∧ n.connsAddr = ctr + 2 ∧
    ctr2 = ctr + 3 ∧ n.pins = nt.fixedPins ∧ n.id = node_id := by
  unfold AllocNodeType.create at h
  cases hbv : buildValues nt.properties parameter with
  | mk res rest1 =>
    rw [hbv] at h
    cases res with
    | error e => simp at h
    | ok values =>
      simp only [] at h
      cases hbp : allocBuildPins nt.fixedPins
          { id := node_id, values := values, valuesAddr := ctr, pins := [],
            pinsAddr := ctr + 1, connsAddr := ctr + 2 } with
      | error e => rw [hbp] at h; simp at h
      | ok node2 =>
        rw [hbp] at h
        simp only [Prod.mk.injEq, Except.ok.injEq] at h
        obtain ⟨⟨h1, -⟩, h3⟩ := h
        unfold allocBuildPins at hbp
        split at hbp
        · cases hbp
        · injection hbp with hbp
          rw [← h1, ← hbp]
          exact ⟨rfl, rfl, rfl, h3.symm, by simp, rfl⟩

/-- C5 counterexample: two creates of the constant type share the pin
meta_data dict: both nodes resolve the out pin metadata to the address
the template pin received at module load, an empty dict in the initial
heap, and a write through the first node is observed when reading
through the second. -/
theorem create_shares_pin_metadata :
    AllocNodeType.create allocConstantNT "n1" [] 1 = ((.ok allocN1, []), 4) ∧
    AllocNodeType.create allocConstantNT "n2" [] 4 = ((.ok allocN2, []), 7) ∧
    allocN1.pinMetaAddr "out" = some 0 ∧
    allocN2.pinMetaAddr "out" = some 0 ∧
    readThroughPin emptyHeap allocN2 "out" "color" = none ∧
    readThroughPin (writeThroughPin emptyHeap allocN1 "out" "color" "red")
      allocN2 "out" "color" = some "red" := by
  refine ⟨by decide, by decide, by decide, by decide, rfl, rfl⟩

/-- C5 (amended): two successive creates share no mutable state through
the node level dicts: the values, pins and connections dict addresses
of the two nodes are pairwise distinct, freshly allocated by each call;
but both nodes receive the template pin objects of the
FixedPinGenerator verbatim, so the mutable meta_data dict of each pin,
allocated once with the node type, is shared between the two nodes. -/
theorem create_fresh_node_dicts_shared_pins (nt : AllocNodeType) (id1 id2 : String)
    (p1 p2 : List (String × PyVal)) (c0 : Nat) (n1 n2 : AllocNode)
    (r1 r2 : List (String × PyVal)) (c1 c2 : Nat)
    (h1 : AllocNodeType.create nt id1 p1 c0 = ((.ok n1, r1), c1))
    (h2 : AllocNodeType.create nt id2 p2 c1 = ((.ok n2, r2), c2)) :
    (n1.valuesAddr ≠ n2.valuesAddr ∧ n1.valuesAddr ≠ n2.pinsAddr ∧
     n1.valuesAddr ≠ n2.connsAddr ∧ n1.pinsAddr ≠ n2.valuesAddr ∧
     n1.pinsAddr ≠ n2.pinsAddr ∧ n1.pinsAddr ≠ n2.connsAddr ∧
     n1.connsAddr ≠ n2.valuesAddr ∧ n1.connsAddr ≠ n2.pinsAddr ∧
     n1.connsAddr ≠ n2.connsAddr) ∧
    n1.pins = nt.fixedPins ∧ n2.pins = nt.fixedPins := by
  obtain ⟨hv1, hp1, hc1, hctr1, hpins1, -⟩ :=
    allocCreate_ok_spec nt id1 p1 c0 n1 r1 c1 h1
  obtain ⟨hv2, hp2, hc2, hctr2, hpins2, -⟩ :=
    allocCreate_ok_spec nt id2 p2 c1 n2 r2 c2 h2
  subst hctr1
  refine ⟨?_, hpins1, hpins2⟩
  rw [hv1, hp1, hc1, hv2, hp2, hc2]
  omega

/-- C5 witness for the amended theorem: the two concrete creates of the
constant type. -/
theorem create_fresh_node_dicts_shared_pins_witness :
    ((allocN1.valuesAddr ≠ allocN2.valuesAddr ∧ allocN1.valuesAddr ≠ allocN2.pinsAddr ∧
      allocN1.valuesAddr ≠ allocN2.connsAddr ∧ allocN1.pinsAddr ≠ allocN2.valuesAddr ∧
      allocN1.pinsAddr ≠ allocN2.pinsAddr ∧ allocN1.pinsAddr ≠ allocN2.connsAddr ∧
      allocN1.connsAddr ≠ allocN2.valuesAddr ∧ allocN1.connsAddr ≠ allocN2.pinsAddr ∧
      allocN1.connsAddr ≠ allocN2.connsAddr) ∧
     allocN1.pins = allocConstantNT.fixedPins ∧ allocN2.pins = allocConstantNT.fixedPins) :=
  create_fresh_node_dicts_shared_pins allocConstantNT "n1" "n2" [] [] 1
    allocN1 allocN2 [] [] 4 7 (by decide) (by decide)

/-- Keys after a dict assignment: the assigned key plus the old keys. -/
theorem mem_keys_insertBlock (k k3 : GenKey) (v : Option String) :
    ∀ bs : List (GenKey × Option String),
      k3 ∈ (insertBlock bs k v).map Prod.fst ↔ k3 ∈ bs.map Prod.fst ∨ k3 = k := by
  intro bs
  induction bs with
  | nil => simp [insertBlock]
  | cons kv rest ih =>
    obtain ⟨k0, v0⟩ := kv
    by_cases hk : k0 = k
    · subst hk
      simp only [insertBlock, if_pos rfl]
      constructor
      · intro h
        rcases List.mem_cons.mp h with h | h
        · exact Or.inr h
        · exact Or.inl (List.mem_cons_of_mem _ h)
      · intro h
        rcases h with h | h
        · rcases List.mem_cons.mp h with h | h
          · exact h ▸ List.mem_cons_self _ _
          · exact List.mem_cons_of_mem _ h
        · exact h ▸ List.mem_cons_self _ _
    · simp only [insertBlock, if_neg hk, List.map_cons, List.mem_cons, ih]
      tauto

/-- hasKey agrees with key membership. -/
theorem hasKey_iff_mem (k : GenKey) :
    ∀ bs : List (GenKey × Option String), hasKey bs k = true ↔ k ∈ bs.map Prod.fst := by
  intro bs
  induction bs with
  | nil => simp [hasKey]
  | cons kv rest ih =>
    simp only [hasKey, List.any_cons, List.map_cons, List.mem_cons, Bool.or_eq_true,
      beq_iff_eq] at ih ⊢
    rw [ih]
    constructor
    · rintro (h | h)
      · exact Or.inl h.symm
      · exact Or.inr h
    · rintro (h | h)
      · exact Or.inl h.symm
      · exact Or.inr h

/-- A dict assignment keeps the accumulator keys distinct. -/
theorem keysNodup_insertBlock (k : GenKey) (v : Option String) :
    ∀ bs : List (GenKey × Option String), keysNodup bs → keysNodup (insertBlock bs k v) := by
  intro bs
  induction bs with
  | nil => intro h; simp [insertBlock, keysNodup]
  | cons kv rest ih =>
    intro h
    obtain ⟨k0, v0⟩ := kv
    have hh := List.nodup_cons.mp h
    by_cases hk : k0 = k
    · subst hk
      simpa [insertBlock, keysNodup] using h
    · simp only [insertBlock, if_neg hk]
      refine List.nodup_cons.mpr ⟨?_, ih hh.2⟩
      intro hmem
      rcases (mem_keys_insertBlock k k0 v rest).mp hmem with hmem | hmem
      · exact hh.1 hmem
      · exact hk hmem

/-- Inserting a type tag block neither touches node type keys nor the
registry, and keeps keys distinct. -/
theorem genFrame_insertTy (g : Generating) (t : TyTag) (s : Option String) :
    GenFrame g { g with code_blocks := insertBlock g.code_blocks (GenKey.tyKey t) s } := by
  refine ⟨rfl, fun nt => ?_, fun h => keysNodup_insertBlock _ _ _ h⟩
  simp only []
  cases hg : hasKey g.code_blocks (GenKey.ntKey nt) with
  | true =>
    have := (hasKey_iff_mem _ _).mp hg
    exact (hasKey_iff_mem _ _).mpr ((mem_keys_insertBlock _ _ _ _).mpr (Or.inl this))
  | false =>
    cases hg2 : hasKey (insertBlock g.code_blocks (GenKey.tyKey t) s) (GenKey.ntKey nt) with
    | false => rfl
    | true =>
      exfalso
      rcases (mem_keys_insertBlock _ _ _ _).mp ((hasKey_iff_mem _ _).mp hg2) with hmem | hmem
      · rw [(hasKey_iff_mem _ _).mpr hmem] at hg; cases hg
      · cases hmem

/-- GenFrame is reflexive. -/
theorem genFrame_refl (g : Generating) : GenFrame g g := ⟨rfl, fun _ => rfl, fun h => h⟩

/-- GenFrame composes. -/
theorem genFrame_trans {g1 g2 g3 : Generating} (h1 : GenFrame g1 g2) (h2 : GenFrame g2 g3) :
    GenFrame g1 g3 :=
  ⟨h2.1.trans h1.1, fun nt => (h2.2.1 nt).trans (h1.2.1 nt), fun h => h2.2.2 (h1.2.2 h)⟩

/-- generateDT only records a type tag block. -/
theorem generateDT_frame (g : Generating) (d : DataType) :
    GenFrame g (g.generateDT d).2 := by
  simp only [Generating.generateDT]
  cases hs : g.generator.static.lookup (dtTag d) with
  | none => exact genFrame_refl g
  | some s =>
    cases hd : g.generator.dynamic.lookup (dtTag d) with
    | none => exact genFrame_refl g
    | some f =>
      cases f with
      | constFun str => exact genFrame_insertTy g _ s
      | fixedPinGenHandler => exact genFrame_refl g
      | simpleDataTypeHandler => exact genFrame_insertTy g _ s

/-- The pin loop of the fixed pin handler only records type tag
blocks. -/
theorem genPinLines_frame (pins : List (String × Pin)) :
    ∀ g : Generating, GenFrame g (genPinLines g pins).2 := by
  induction pins with
  | nil => intro g; exact genFrame_refl g
  | cons kv rest ih =>
    intro g
    obtain ⟨n, pin⟩ := kv
    simp only [genPinLines]
    by_cases hin : pin.in_out = "in"
    · simp only [if_pos hin]
      cases hdt : g.generateDT pin.type with
      | mk r g1 =>
        have hfr1 : GenFrame g g1 := by
          have := generateDT_frame g pin.type
          rw [hdt] at this
          exact this
        cases r with
        | error e => exact hfr1
        | ok t =>
          simp only []
          cases hrest : genPinLines g1 rest with
          | mk r2 g2 =>
            have hfr2 : GenFrame g1 g2 := by
              have := ih g1
              rw [hrest] at this
              exact this
            cases r2 with
            | error e => exact genFrame_trans hfr1 hfr2
            | ok lines => exact genFrame_trans hfr1 hfr2
    · simp only [if_neg hin]
      by_cases hout : pin.in_out = "out"
      · simp only [if_pos hout]
        cases hdt : g.generateDT pin.type with
        | mk r g1 =>
          have hfr1 : GenFrame g g1 := by
            have := generateDT_frame g pin.type
            rw [hdt] at this
            exact this
          cases r with
          | error e => exact hfr1
          | ok t =>
            simp only []
            cases hrest : genPinLines g1 rest with
            | mk r2 g2 =>
              have hfr2 : GenFrame g1 g2 := by
                have := ih g1
                rw [hrest] at this
                exact this
              cases r2 with
              | error e => exact genFrame_trans hfr1 hfr2
              | ok lines => exact genFrame_trans hfr1 hfr2
      · simp only [if_neg hout]
        exact genFrame_refl g

/-- Dynamic generator application only records type tag blocks. -/
theorem applyDynV_frame (g : Generating) (f : DynFun) (v : GenValue) :
    GenFrame g (g.applyDynV f v).2 := by
  cases f with
  | constFun s => exact genFrame_refl g
  | simpleDataTypeHandler =>
    cases v with
    | pinGenV pg => exact genFrame_refl g
    | propV p => exact genFrame_refl g
    | dataTypeV d => exact genFrame_refl g
  | fixedPinGenHandler =>
    cases v with
    | pinGenV pg =>
      cases pg with
      | fixedPinGenerator pins =>
        simp only [Generating.applyDynV]
        cases hpl : genPinLines g pins with
        | mk r g1 =>
          have hfr : GenFrame g g1 := by
            have := genPinLines_frame pins g
            rw [hpl] at this
            exact this
          cases r with
          | error e => exact hfr
          | ok lines => exact hfr
      | chainPinGenerators gens => exact genFrame_refl g
      | simplePropertyPinGenerator a b c dd => exact genFrame_refl g
    | propV p => exact genFrame_refl g
    | dataTypeV d => exact genFrame_refl g

/-- generate only records type tag blocks: node type keys, the registry
and key distinctness are untouched. -/
theorem generate_frame (g : Generating) (v : GenValue) :
    GenFrame g (g.generate v).2 := by
  unfold Generating.generate
  cases hs : g.generator.static.lookup v.tyTag with
  | none => exact genFrame_refl g
  | some s =>
    simp only []
    cases hd : g.generator.dynamic.lookup v.tyTag with
    | none => exact genFrame_refl g
    | some f =>
      simp only []
      cases hap : g.applyDynV f v with
      | mk r g1 =>
        have hfr : GenFrame g g1 := by
          have := applyDynV_frame g f v
          rw [hap] at this
          exact this
        cases r with
        | error e => exact hfr
        | ok d =>
          refine genFrame_trans hfr ?_
          exact genFrame_insertTy g1 _ s

/-- The property loop of node_type only records type tag blocks. -/
theorem genProps_frame (props : List (String × Property)) :
    ∀ g : Generating, GenFrame g (genProps g props).2 := by
  induction props with
  | nil => intro g; exact genFrame_refl g
  | cons kv rest ih =>
    intro g
    obtain ⟨n, p⟩ := kv
    simp only [genProps]
    cases hg : g.generate (.propV p) with
    | mk r g1 =>
      have hfr1 : GenFrame g g1 := by
        have := generate_frame g (.propV p)
        rw [hg] at this
        exact this
      cases r with
      | error e => exact hfr1
      | ok s =>
        simp only []
        cases hrest : genProps g1 rest with
        | mk r2 g2 =>
          have hfr2 : GenFrame g1 g2 := by
            have := ih g1
            rw [hrest] at this
            exact this
          cases r2 with
          | error e => exact genFrame_trans hfr1 hfr2
          | ok ls => exact genFrame_trans hfr1 hfr2

/-- An absent key is counted zero times. -/
theorem countKey_eq_zero (k : GenKey) :
    ∀ bs : List (GenKey × Option String), hasKey bs k = false → countKey bs k = 0 := by
  intro bs
  induction bs with
  | nil => intro h; rfl
  | cons kv rest ih =>
    intro h
    simp only [hasKey, List.any_cons, Bool.or_eq_false_iff] at h
    simp only [countKey, List.filter_cons, h.1]
    exact ih (by simpa [hasKey] using h.2)

/-- Assigning a key absent from the accumulator adds exactly one entry
for it. -/
theorem countKey_insert_notMem (k : GenKey) (v : Option String) :
    ∀ bs : List (GenKey × Option String), hasKey bs k = false →
      countKey (insertBlock bs k v) k = 1 := by
  intro bs
  induction bs with
  | nil => intro h; simp [insertBlock, countKey]
  | cons kv rest ih =>
    intro h
    obtain ⟨k0, v0⟩ := kv
    simp only [hasKey, List.any_cons, Bool.or_eq_false_iff] at h
    have hne : k0 ≠ k := by
      intro hh
      rw [hh] at h
      simp at h
    simp only [insertBlock, if_neg hne, countKey, List.filter_cons]
    have : (k0 == k) = false := by simpa using hne
    simp only [this]
    exact ih (by simpa [hasKey] using h.2)

/-- With distinct keys, a present key is counted exactly once. -/
theorem countKey_one_of_nodup (k : GenKey) :
    ∀ bs : List (GenKey × Option String), keysNodup bs → hasKey bs k = true →
      countKey bs k = 1 := by
  intro bs
  induction bs with
  | nil => intro _ h; cases h
  | cons kv rest ih =>
    intro hnd h
    obtain ⟨k0, v0⟩ := kv
    have hh := List.nodup_cons.mp hnd
    by_cases hk : k0 = k
    · subst hk
      simp only [countKey, List.filter_cons, beq_self_eq_true, List.length_cons]
      have hz : countKey rest k0 = 0 := by
        apply countKey_eq_zero
        cases hr : hasKey rest k0 with
        | false => rfl
        | true => exact absurd ((hasKey_iff_mem _ _).mp hr) hh.1
      simpa [countKey] using hz
    · have : (k0 == k) = false := by simpa using hk
      simp only [countKey, List.filter_cons, this]
      apply ih hh.2
      simp only [hasKey, List.any_cons, Bool.or_eq_true] at h
      rcases h with h | h
      · exact absurd (by simpa using h) hk
      · exact h

/-- C8: once a node_type call has completed, the NodeType key is in the
accumulator; a second call for the same type is a no-op returning the
context unchanged, and the accumulator, whose keys stay distinct, holds
exactly one code block entry under that node type, so the final build
emits its block once. -/
theorem node_type_memoized (g : Generating) (nt : NodeType)
    (hnd : keysNodup g.code_blocks)
    (hok : (g.node_type nt).fst.isOk = true) :
    Generating.node_type ((g.node_type nt).snd) nt = (.ok (), (g.node_type nt).snd) ∧
    countKey ((g.node_type nt).snd).code_blocks (GenKey.ntKey nt) = 1 := by
  by_cases hmem : hasKey g.code_blocks (GenKey.ntKey nt) = true
  · have hcall : g.node_type nt = (.ok (), g) := by
      unfold Generating.node_type
      rw [if_pos hmem]
    rw [hcall]
    exact ⟨by unfold Generating.node_type; rw [if_pos hmem],
      countKey_one_of_nodup _ _ hnd hmem⟩
  · unfold Generating.node_type at hok ⊢
    rw [if_neg hmem] at hok ⊢
    cases hg1 : g.generate (.pinGenV nt.pin_generator) with
    | mk r1 g1 =>
      rw [hg1] at hok
      cases r1 with
      | error e => simp [Except.isOk, Except.toBool] at hok
      | ok pin_generation =>
        simp only [] at hok ⊢
        cases hg2 : genProps g1 nt.properties with
        | mk r2 g2 =>
          rw [hg2] at hok
          cases r2 with
          | error e => simp [Except.isOk, Except.toBool] at hok
          | ok propLines =>
            simp only [] at hok ⊢
            have hfr : GenFrame g g2 := by
              have hf1 := generate_frame g (.pinGenV nt.pin_generator)
              rw [hg1] at hf1
              have hf2 := genProps_frame nt.properties g1
              rw [hg2] at hf2
              exact genFrame_trans hf1 hf2
            have hmem2 : hasKey g2.code_blocks (GenKey.ntKey nt) = false := by
              rw [hfr.2.1 nt]
              exact Bool.not_eq_true _ ▸ (by simpa using hmem)
            constructor
            · rw [if_pos ((hasKey_iff_mem _ _).mpr
                ((mem_keys_insertBlock _ _ _ _).mpr (Or.inr rfl)))]
            · exact countKey_insert_notMem _ _ _ hmem2

/-- C8 witness: generating the constant node type twice over the demo
registry. -/
theorem node_type_memoized_witness :
    Generating.node_type ((demoCtx.node_type ConstantNodeType).snd) ConstantNodeType =
      (.ok (), (demoCtx.node_type ConstantNodeType).snd) ∧
    countKey ((demoCtx.node_type ConstantNodeType).snd).code_blocks
      (GenKey.ntKey ConstantNodeType) = 1 :=
  node_type_memoized demoCtx ConstantNodeType (by decide) (by rfl)

/-- C9: generating a value whose tag has no registered handler raises
the KeyError of the registry lookup (the UnregisteredTypeError of the
taxonomy) and records nothing: the generation context comes back
exactly as it was. -/
theorem generate_unregistered (g : Generating) (v : GenValue)
    (h : g.generator.static.lookup v.tyTag = none) :
    g.generate v = (.error (.keyError [v.tyTag.pyName]), g) := by
  unfold Generating.generate
  rw [h]

/-- C9 witness: an empty registry rejects a simple data type value and
leaves the context untouched. -/
theorem generate_unregistered_witness :
    emptyGenCtx.generate (.dataTypeV (.simpleDataType "number")) =
      (.error (.keyError [(GenValue.dataTypeV (.simpleDataType "number")).tyTag.pyName]),
       emptyGenCtx) :=
  generate_unregistered emptyGenCtx (.dataTypeV (.simpleDataType "number")) (by rfl)
